import Mathlib

/-!
Verification of the `acmjson` JSON-RPC 1.0 command registry and codec of the
Actinium `acmd` repository.

The repository sources available for this development are the package's test
files (`error_test.go`, `walletsvrcmds_test.go`, `walletsvrwscmds_test.go`,
`acmdextcmds_test.go`, and the chain-server websocket test file).  The
implementation files of the `acmjson` package itself (the registry, the
reflection-driven marshaller/unmarshaller, the error model and the command
catalog) are not among them, so the definitions below are modelled from the
specification's description of those components, with the test files as the
authority for every behavior they pin (expected marshalled bytes, expected
unmarshalled values, expected error codes).

Machine integers are modelled as `Int` with explicit range checks where the
code checks ranges.  JSON numbers distinguish the integer form from the
decimal (floating-point) form, mirroring the wire format; no floating-point
arithmetic is performed by the codec, it only transports values.
-/

/-- A JSON number: either an integer, or a decimal `m * 10^(-e)` with `e > 0`
fractional digits (the only numeric forms appearing in the test vectors). -/
inductive JNum where
  | int (i : Int)
  | dec (m : Int) (e : Nat)
  deriving DecidableEq, Repr

/-- JSON values.  Objects keep their key order, mirroring the ordered output
of the Go `encoding/json` encoder on struct values. -/
inductive Json where
  | null
  | bool (b : Bool)
  | num (n : JNum)
  | str (s : String)
  | arr (xs : List Json)
  | obj (kvs : List (String × Json))
  deriving Repr

mutual

/-- Boolean equality on `Json` (written by hand because automatic deriving is
not available for this nested inductive). -/
def jbeq : Json → Json → Bool
  | .null, .null => true
  | .bool a, .bool b => a == b
  | .num a, .num b => a == b
  | .str a, .str b => a == b
  | .arr xs, .arr ys => jbeqList xs ys
  | .obj xs, .obj ys => jbeqKVs xs ys
  | _, _ => false

/-- Elementwise `jbeq` on lists of JSON values. -/
def jbeqList : List Json → List Json → Bool
  | [], [] => true
  | x :: xs, y :: ys => jbeq x y && jbeqList xs ys
  | _, _ => false

/-- Elementwise `jbeq` on key/value lists. -/
def jbeqKVs : List (String × Json) → List (String × Json) → Bool
  | [], [] => true
  | (n, x) :: xs, (m, y) :: ys => n == m && jbeq x y && jbeqKVs xs ys
  | _, _ => false

end

mutual

theorem jbeq_iff : (a b : Json) → (jbeq a b = true ↔ a = b)
  | .null, .null => by simp [jbeq]
  | .null, .bool _ => by simp [jbeq]
  | .null, .num _ => by simp [jbeq]
  | .null, .str _ => by simp [jbeq]
  | .null, .arr _ => by simp [jbeq]
  | .null, .obj _ => by simp [jbeq]
  | .bool _, .null => by simp [jbeq]
  | .bool a, .bool b => by simp [jbeq]
  | .bool _, .num _ => by simp [jbeq]
  | .bool _, .str _ => by simp [jbeq]
  | .bool _, .arr _ => by simp [jbeq]
  | .bool _, .obj _ => by simp [jbeq]
  | .num _, .null => by simp [jbeq]
  | .num _, .bool _ => by simp [jbeq]
  | .num a, .num b => by simp [jbeq]
  | .num _, .str _ => by simp [jbeq]
  | .num _, .arr _ => by simp [jbeq]
  | .num _, .obj _ => by simp [jbeq]
  | .str _, .null => by simp [jbeq]
  | .str _, .bool _ => by simp [jbeq]
  | .str _, .num _ => by simp [jbeq]
  | .str a, .str b => by simp [jbeq]
  | .str _, .arr _ => by simp [jbeq]
  | .str _, .obj _ => by simp [jbeq]
  | .arr _, .null => by simp [jbeq]
  | .arr _, .bool _ => by simp [jbeq]
  | .arr _, .num _ => by simp [jbeq]
  | .arr _, .str _ => by simp [jbeq]
  | .arr xs, .arr ys => by simpa [jbeq] using jbeqList_iff xs ys
  | .arr _, .obj _ => by simp [jbeq]
  | .obj _, .null => by simp [jbeq]
  | .obj _, .bool _ => by simp [jbeq]
  | .obj _, .num _ => by simp [jbeq]
  | .obj _, .str _ => by simp [jbeq]
  | .obj _, .arr _ => by simp [jbeq]
  | .obj xs, .obj ys => by simpa [jbeq] using jbeqKVs_iff xs ys

theorem jbeqList_iff : (xs ys : List Json) → (jbeqList xs ys = true ↔ xs = ys)
  | [], [] => by simp [jbeqList]
  | [], _ :: _ => by simp [jbeqList]
  | _ :: _, [] => by simp [jbeqList]
  | x :: xs, y :: ys => by
      simp [jbeqList, jbeq_iff x y, jbeqList_iff xs ys]

theorem jbeqKVs_iff : (xs ys : List (String × Json)) → (jbeqKVs xs ys = true ↔ xs = ys)
  | [], [] => by simp [jbeqKVs]
  | [], _ :: _ => by simp [jbeqKVs]
  | _ :: _, [] => by simp [jbeqKVs]
  | (n, x) :: xs, (m, y) :: ys => by
      simp [jbeqKVs, jbeq_iff x y, jbeqKVs_iff xs ys, Prod.ext_iff]

end

instance : DecidableEq Json := fun a b => decidable_of_iff _ (jbeq_iff a b)

/-- The semantic value kinds of command-record fields (section 3 of the spec:
string, integer kinds with their bit widths, float, boolean, array of a kind,
mapping from string to a kind, nested record with named fields). -/
inductive Kind where
  | kString
  | kBool
  | kInt
  | kInt32
  | kInt64
  | kUInt32
  | kFloat
  | kArray (elem : Kind)
  | kMap (elem : Kind)
  | kObj (fields : List (String × Kind))
  deriving Repr

mutual

/-- `kindHolds k j` holds when the JSON value `j` is in the natural JSON form
of kind `k`: strings for the string kind, booleans for the boolean kind,
integer numbers within range for the integer kinds (the spec's
"Integer JSON number → any integer kind within range"), any number for the
float kind (the spec's lossless promotion of integer numbers), arrays and
objects elementwise for the structured kinds.  Nested records require the
declared keys in declaration order, the order the Go encoder emits. -/
def kindHolds : Kind → Json → Bool
  | .kString, .str _ => true
  | .kBool, .bool _ => true
  | .kInt, .num (.int i) => decide (-(2 ^ 63) ≤ i) && decide (i < 2 ^ 63)
  | .kInt64, .num (.int i) => decide (-(2 ^ 63) ≤ i) && decide (i < 2 ^ 63)
  | .kInt32, .num (.int i) => decide (-(2 ^ 31) ≤ i) && decide (i < 2 ^ 31)
  | .kUInt32, .num (.int i) => decide (0 ≤ i) && decide (i < 2 ^ 32)
  | .kFloat, .num _ => true
  | .kArray k, .arr xs => kindHoldsList k xs
  | .kMap k, .obj kvs => kindHoldsVals k kvs
  | .kObj fs, .obj kvs => kindHoldsObj fs kvs
  | _, _ => false

/-- All elements of an array conform to the element kind. -/
def kindHoldsList : Kind → List Json → Bool
  | _, [] => true
  | k, j :: js => kindHolds k j && kindHoldsList k js

/-- All values of a string-keyed mapping conform to the element kind. -/
def kindHoldsVals : Kind → List (String × Json) → Bool
  | _, [] => true
  | k, (_, j) :: kvs => kindHolds k j && kindHoldsVals k kvs

/-- A JSON object matches a nested-record schema: same keys in declaration
order, each value conforming to the declared field kind. -/
def kindHoldsObj : List (String × Kind) → List (String × Json) → Bool
  | [], [] => true
  | (n, k) :: fs, (m, j) :: kvs => n == m && kindHolds k j && kindHoldsObj fs kvs
  | _, _ => false

end

theorem kindHolds_null (k : Kind) : kindHolds k Json.null = false := by
  cases k <;> rfl

/-! ### Rendering JSON to bytes

Modelled from the spec: the marshaller serializes the envelope with Go's
`encoding/json` encoder.  Struct fields are emitted in declaration order,
integers without a decimal point, booleans as `true`/`false`, strings with
JSON escaping (including the Go encoder's HTML escapes for `<`, `>`, `&`),
arrays and objects without any added whitespace. -/

/-- Escape one character the way the Go JSON encoder does for the characters
that can occur in this catalog's data (quote, backslash, control characters,
and the HTML-escaped `<`, `>`, `&`). -/
def escChar (c : Char) : String :=
  if c = '"' then "\\\""
  else if c = '\\' then "\\\\"
  else if c = '\n' then "\\n"
  else if c = '\t' then "\\t"
  else if c = '\r' then "\\r"
  else if c = '<' then "\\u003c"
  else if c = '>' then "\\u003e"
  else if c = '&' then "\\u0026"
  else String.singleton c

/-- JSON string escaping, character by character. -/
def escape (s : String) : String :=
  String.join (s.toList.map escChar)

/-- Render a JSON string with its surrounding quotes. -/
def renderStr (s : String) : String :=
  "\"" ++ escape s ++ "\""

/-- Decimal representation of a natural number. -/
def renderNat (n : Nat) : String :=
  Nat.repr n

/-- Decimal representation of an integer. -/
def renderInt (i : Int) : String :=
  if i < 0 then "-" ++ renderNat i.natAbs else renderNat i.natAbs

/-- Left-pad a digit string with zeros up to the given length. -/
def padZeros (s : String) (len : Nat) : String :=
  if s.length < len then String.mk (List.replicate (len - s.length) '0') ++ s else s

/-- Render a JSON number.  A decimal `m * 10^(-e)` is rendered with exactly
`e` fractional digits, e.g. `0.5` and `0.0123`, matching the forms the Go
encoder produces for the catalog's float values. -/
def renderNum : JNum → String
  | .int i => renderInt i
  | .dec m e =>
      let sign := if m < 0 then "-" else ""
      let digits := padZeros (renderNat m.natAbs) (e + 1)
      let intPart := String.mk (digits.toList.take (digits.length - e))
      let fracPart := String.mk (digits.toList.drop (digits.length - e))
      sign ++ intPart ++ "." ++ fracPart

mutual

/-- Render a JSON value to its serialized byte form. -/
def render : Json → String
  | .null => "null"
  | .bool true => "true"
  | .bool false => "false"
  | .num n => renderNum n
  | .str s => renderStr s
  | .arr xs => "[" ++ renderList xs ++ "]"
  | .obj kvs => "\x7b" ++ renderKVs kvs ++ "\x7d"

/-- Render array elements, comma separated. -/
def renderList : List Json → String
  | [] => ""
  | [x] => render x
  | x :: xs => render x ++ "," ++ renderList xs

/-- Render object members, comma separated, each as `"key":value`. -/
def renderKVs : List (String × Json) → String
  | [] => ""
  | [(n, x)] => renderStr n ++ ":" ++ render x
  | (n, x) :: kvs => renderStr n ++ ":" ++ render x ++ "," ++ renderKVs kvs

end

example : render (.arr [.obj [(("hash"), .str ("123")), (("index"), .num (.int 0))]]) =
    "[\x7b\"hash\":\"123\",\"index\":0\x7d]" := by rfl

example : render (.num (.dec 123 4)) = "0.0123" := by rfl

example : render (.num (.dec 5 1)) = "0.5" := by rfl

/-! ### Parsing JSON from bytes

Modelled from the spec: positional string arguments "may already be
JSON-encoded" and are re-parsed during assignment when the target kind is
structured; the test vectors hand such strings to the generic constructor.
The parser below accepts the JSON forms occurring in this catalog: `null`,
booleans, integer and decimal numbers, strings with the standard escapes,
arrays and objects, with optional whitespace between tokens. -/

/-- JSON insignificant whitespace. -/
def isWs (c : Char) : Bool :=
  c = ' ' || c = '\n' || c = '\t' || c = '\r'

/-- Drop leading whitespace. -/
def skipWs (cs : List Char) : List Char :=
  cs.dropWhile isWs

/-- Read a run of decimal digits, returning the accumulated value, the number
of digits read, and the remaining input. -/
def pDigits : List Char → Nat → Nat → (Nat × Nat × List Char)
  | [], v, n => (v, n, [])
  | c :: cs, v, n =>
      if c.isDigit then pDigits cs (10 * v + (c.toNat - 48)) (n + 1)
      else (v, n, c :: cs)

/-- Read the body of a JSON string after its opening quote, handling the
standard escapes. -/
def pStrAux : List Char → List Char → Option (String × List Char)
  | [], _ => none
  | '"' :: cs, acc => some (String.mk acc.reverse, cs)
  | '\\' :: c :: cs, acc =>
      if c = '"' then pStrAux cs ('"' :: acc)
      else if c = '\\' then pStrAux cs ('\\' :: acc)
      else if c = '/' then pStrAux cs ('/' :: acc)
      else if c = 'n' then pStrAux cs ('\n' :: acc)
      else if c = 't' then pStrAux cs ('\t' :: acc)
      else if c = 'r' then pStrAux cs ('\r' :: acc)
      else none
  | c :: cs, acc => pStrAux cs (c :: acc)

/-- Read a JSON number (the optional minus sign has already been consumed). -/
def pNum (neg : Bool) (cs : List Char) : Option (Json × List Char) :=
  match pDigits cs 0 0 with
  | (_, 0, _) => none
  | (v, _ + 1, rest) =>
    match rest with
    | '.' :: rest2 =>
      match pDigits rest2 0 0 with
      | (_, 0, _) => none
      | (f, e + 1, rest3) =>
          let m : Int := Int.ofNat (v * 10 ^ (e + 1) + f)
          some (.num (.dec (if neg then -m else m) (e + 1)), rest3)
    | _ =>
        let i : Int := Int.ofNat v
        some (.num (.int (if neg then -i else i)), rest)

mutual

/-- Parse one JSON value; `fuel` bounds the nesting depth. -/
def pVal : Nat → List Char → Option (Json × List Char)
  | 0, _ => none
  | fuel + 1, cs =>
    match skipWs cs with
    | 'n' :: 'u' :: 'l' :: 'l' :: rest => some (.null, rest)
    | 't' :: 'r' :: 'u' :: 'e' :: rest => some (.bool true, rest)
    | 'f' :: 'a' :: 'l' :: 's' :: 'e' :: rest => some (.bool false, rest)
    | '"' :: rest =>
        match pStrAux rest [] with
        | some (s, rest2) => some (.str s, rest2)
        | none => none
    | '[' :: rest =>
        match skipWs rest with
        | ']' :: rest2 => some (.arr [], rest2)
        | rest2 =>
          match pElems fuel rest2 with
          | some (js, rest3) => some (.arr js, rest3)
          | none => none
    | '\x7b' :: rest =>
        match skipWs rest with
        | '\x7d' :: rest2 => some (.obj [], rest2)
        | rest2 =>
          match pMembers fuel rest2 with
          | some (kvs, rest3) => some (.obj kvs, rest3)
          | none => none
    | '-' :: rest => pNum true rest
    | c :: rest => if c.isDigit then pNum false (c :: rest) else none
    | [] => none

/-- Parse the comma-separated elements of a nonempty array, up to and
including the closing bracket. -/
def pElems : Nat → List Char → Option (List Json × List Char)
  | 0, _ => none
  | fuel + 1, cs =>
    match pVal fuel cs with
    | none => none
    | some (j, rest) =>
      match skipWs rest with
      | ',' :: rest2 =>
          match pElems fuel rest2 with
          | none => none
          | some (js, rest3) => some (j :: js, rest3)
      | ']' :: rest2 => some ([j], rest2)
      | _ => none

/-- Parse the comma-separated members of a nonempty object, up to and
including the closing brace. -/
def pMembers : Nat → List Char → Option (List (String × Json) × List Char)
  | 0, _ => none
  | fuel + 1, cs =>
    match skipWs cs with
    | '"' :: rest =>
      match pStrAux rest [] with
      | none => none
      | some (key, rest2) =>
        match skipWs rest2 with
        | ':' :: rest3 =>
          match pVal fuel rest3 with
          | none => none
          | some (j, rest4) =>
            match skipWs rest4 with
            | ',' :: rest5 =>
                match pMembers fuel rest5 with
                | none => none
                | some (kvs, rest6) => some ((key, j) :: kvs, rest6)
            | '\x7d' :: rest5 => some ([(key, j)], rest5)
            | _ => none
        | _ => none
    | _ => none

end

/-- Parse a complete JSON document from a string: one value followed only by
whitespace. -/
def parseJson (s : String) : Option Json :=
  match pVal (s.length + 1) s.toList with
  | some (j, rest) => if skipWs rest = [] then some j else none
  | none => none

example : parseJson ("[\x7b\"hash\":\"123\",\"index\":0\x7d]") =
    some (.arr [.obj [(("hash"), .str ("123")), (("index"), .num (.int 0))]]) := by rfl

example : parseJson ("\x7b\"1Address\":0.5\x7d") =
    some (.obj [(("1Address"), .num (.dec 5 1))]) := by rfl

example : parseJson ("[\"1Address\"]") = some (.arr [.str ("1Address")]) := by rfl

example : parseJson ("-12") = some (.num (.int (-12))) := by rfl

/-! ### Error model

Modelled from the spec (section 4.1) and pinned by `error_test.go`: a single
enumerated error code with a stable stringification per code, and the fixed
fallback text for numeric values outside the enumeration.  The Go `ErrorCode`
is an `int`; the numeric values are internal (the stringer goes through a
map), so the enumeration order below follows the test table. -/

/-- The Go `ErrorCode` integer type. -/
abbrev ErrorCode := Int

def ErrDuplicateMethod : Int := 0

def ErrInvalidUsageFlags : Int := 1

def ErrInvalidType : Int := 2

def ErrEmbeddedType : Int := 3

def ErrUnexportedField : Int := 4

def ErrUnsupportedFieldType : Int := 5

def ErrNonOptionalField : Int := 6

def ErrNonOptionalDefault : Int := 7

def ErrMismatchedDefault : Int := 8

def ErrUnregisteredMethod : Int := 9

def ErrNumParams : Int := 10

def ErrMissingDescription : Int := 11

/-- The number of enumerated error codes (exposed to the tests as
`TstNumErrorCodes`). -/
def numErrorCodes : Int := 12

/-- The stringer's lookup table: one stable name per enumerated code
(`error_test.go` lines 21-32). -/
def errorCodeStrings : List (ErrorCode × String) :=
  [(ErrDuplicateMethod, ("ErrDuplicateMethod")),
   (ErrInvalidUsageFlags, ("ErrInvalidUsageFlags")),
   (ErrInvalidType, ("ErrInvalidType")),
   (ErrEmbeddedType, ("ErrEmbeddedType")),
   (ErrUnexportedField, ("ErrUnexportedField")),
   (ErrUnsupportedFieldType, ("ErrUnsupportedFieldType")),
   (ErrNonOptionalField, ("ErrNonOptionalField")),
   (ErrNonOptionalDefault, ("ErrNonOptionalDefault")),
   (ErrMismatchedDefault, ("ErrMismatchedDefault")),
   (ErrUnregisteredMethod, ("ErrUnregisteredMethod")),
   (ErrNumParams, ("ErrNumParams")),
   (ErrMissingDescription, ("ErrMissingDescription"))]

/-- The `ErrorCode.String` method: the stable name for an enumerated code,
and the fixed `Unknown ErrorCode (<n>)` fallback otherwise (the fallback text
is pinned by `error_test.go` line 33). -/
def errorCodeString (e : ErrorCode) : String :=
  match errorCodeStrings.find? (fun p => p.1 == e) with
  | some p => p.2
  | none => "Unknown ErrorCode (" ++ renderInt e ++ ")"

/-- The `acmjson.Error` value: an error-code tag plus a human-readable
description (`error_test.go` constructs these directly). -/
structure AcmError where
  errorCode : ErrorCode
  description : String
  deriving DecidableEq, Repr

/-- The `Error() string` method of `acmjson.Error`.  Modelled from the spec
("a human-readable description") and pinned by `TestError`: the user-visible
message is the `Description` field. -/
def AcmError.errorString (e : AcmError) : String :=
  e.description

/-! ### Command schemas and the registry

Modelled from the spec (sections 3 and 4.3): per-field metadata is the
lowercased field name, the optional flag (nullable wrapper in Go), the
declared default literal when present, and the value kind.  The registry maps
each method name to its schema.  Usage flags are validated at registration
and are advisory afterwards; no claim depends on them, so they are omitted
here.  The schemas below are the command-catalog entries exercised by the
claims, with fields, optionality and defaults taken from the spec's catalog
(section 4.7) and pinned by the expected unmarshalled values in the tests. -/

/-- Metadata of one command-record field. -/
structure CmdField where
  name : String
  optional : Bool
  dflt : Option Json
  kind : Kind

/-- A registered method: its wire name and its ordered field metadata. -/
structure CmdSchema where
  method : String
  fields : List CmdField

/-- A command value: the method it belongs to plus one entry per field, in
declaration order; `none` is an unset nullable wrapper. -/
structure CmdVal where
  method : String
  fields : List (Option Json)
  deriving DecidableEq, Repr

/-- The number of required parameters: the length of the leading run of
non-optional fields (required fields precede optionals). -/
def numReq (fs : List CmdField) : Nat :=
  (fs.takeWhile (fun f => !f.optional)).length

/-- The nested-record kind of `acmjson.OutPoint` (`hash string`,
`index uint32`, with those JSON keys, in that order). -/
def outPointKind : Kind :=
  .kObj [(("hash"), .kString), (("index"), .kUInt32)]

/-- The nested-record kind of `acmjson.RawTxInput` (JSON keys `txid`,
`vout`, `scriptPubKey`, `redeemScript`). -/
def rawTxInputKind : Kind :=
  .kObj [(("txid"), .kString), (("vout"), .kUInt32),
         (("scriptPubKey"), .kString), (("redeemScript"), .kString)]

def addnodeSchema : CmdSchema :=
  ⟨("addnode"),
   [⟨("addr"), false, none, .kString⟩,
    ⟨("subcmd"), false, none, .kString⟩]⟩

def getblockSchema : CmdSchema :=
  ⟨("getblock"),
   [⟨("hash"), false, none, .kString⟩,
    ⟨("verbose"), true, some (.bool true), .kBool⟩,
    ⟨("verbosetx"), true, some (.bool false), .kBool⟩]⟩

def getblockhashSchema : CmdSchema :=
  ⟨("getblockhash"),
   [⟨("index"), false, none, .kInt64⟩]⟩

def getbalanceSchema : CmdSchema :=
  ⟨("getbalance"),
   [⟨("account"), true, none, .kString⟩,
    ⟨("minconf"), true, some (.num (.int 1)), .kInt⟩]⟩

def getbestblockhashSchema : CmdSchema :=
  ⟨("getbestblockhash"), []⟩

def verifychainSchema : CmdSchema :=
  ⟨("verifychain"),
   [⟨("checklevel"), true, some (.num (.int 3)), .kInt32⟩,
    ⟨("checkdepth"), true, some (.num (.int 288)), .kInt32⟩]⟩

def signrawtransactionSchema : CmdSchema :=
  ⟨("signrawtransaction"),
   [⟨("rawtx"), false, none, .kString⟩,
    ⟨("inputs"), true, none, .kArray rawTxInputKind⟩,
    ⟨("privkeys"), true, none, .kArray .kString⟩,
    ⟨("flags"), true, some (.str ("ALL")), .kString⟩]⟩

def sendmanySchema : CmdSchema :=
  ⟨("sendmany"),
   [⟨("fromaccount"), false, none, .kString⟩,
    ⟨("amounts"), false, none, .kMap .kFloat⟩,
    ⟨("minconf"), true, some (.num (.int 1)), .kInt⟩,
    ⟨("comment"), true, none, .kString⟩]⟩

def notifyspentSchema : CmdSchema :=
  ⟨("notifyspent"),
   [⟨("outpoints"), false, none, .kArray outPointKind⟩]⟩

def notifynewtransactionsSchema : CmdSchema :=
  ⟨("notifynewtransactions"),
   [⟨("verbose"), true, some (.bool false), .kBool⟩]⟩

/-- The registered methods this development embeds: the part of the command
catalog the claims exercise. -/
def registry : List CmdSchema :=
  [addnodeSchema, getblockSchema, getblockhashSchema, getbalanceSchema,
   getbestblockhashSchema, verifychainSchema, signrawtransactionSchema,
   sendmanySchema, notifyspentSchema, notifynewtransactionsSchema]

/-- Registry lookup by method name (`UnregisteredMethod` at the call sites
when it misses). -/
def lookupMethod (m : String) : Option CmdSchema :=
  registry.find? (fun s => s.method == m)

/-! ### Parameter assignment, unmarshalling, marshalling

Modelled from the spec (sections 4.4-4.6).  Coercions during assignment
(section 4.6): a value already in the natural JSON form of the target kind is
taken as is (integer numbers must be within the target's range); a JSON
string is re-parsed as JSON when the target kind is an array or a mapping and
the parsed value must then conform; JSON `null` leaves an optional field
unset and is `InvalidType` for a required field; everything else is
`InvalidType`.  The generic constructor applies the same coercion rules as
the unmarshaller (section 4.4). -/

/-- Target kinds that trigger the string re-parse coercion: arrays and
mappings. -/
def structuredKind : Kind → Bool
  | .kArray _ => true
  | .kMap _ => true
  | _ => false

/-- Assign one positional JSON value to a target kind, applying the
coercions above.  Returns the value actually stored in the field. -/
def assignParam (k : Kind) (j : Json) : Except ErrorCode Json :=
  if kindHolds k j then .ok j
  else
    match j with
    | .str s =>
        if structuredKind k then
          match parseJson s with
          | some j2 => if kindHolds k j2 then .ok j2 else .error ErrInvalidType
          | none => .error ErrInvalidType
        else .error ErrInvalidType
    | _ => .error ErrInvalidType

/-- Assign one positional entry to a field: `null` leaves an optional field
unset (`InvalidType` for a required one); any other value goes through
`assignParam` and is wrapped in the nullable container. -/
def assignField (f : CmdField) (j : Json) : Except ErrorCode (Option Json) :=
  match j with
  | .null => if f.optional then .ok none else .error ErrInvalidType
  | _ =>
    match assignParam f.kind j with
    | .ok v => .ok (some v)
    | .error e => .error e

/-- Walk the fields in order: fields covered by a positional entry are
assigned through `assignField`; the remaining fields receive their declared
default when one exists and stay unset otherwise (spec section 4.6 step 5). -/
def unmarshalFields : List CmdField → List Json → Except ErrorCode (List (Option Json))
  | [], [] => .ok []
  | [], _ :: _ => .error ErrNumParams
  | f :: fs, [] =>
      match unmarshalFields fs [] with
      | .ok rest => .ok (f.dflt :: rest)
      | .error e => .error e
  | f :: fs, p :: ps =>
      match assignField f p with
      | .ok v =>
          match unmarshalFields fs ps with
          | .ok rest => .ok (v :: rest)
          | .error e => .error e
      | .error e => .error e

/-- The decoded JSON-RPC 1.0 request envelope (`acmjson.Request`):
`jsonrpc`, `method`, positional `params`, `id`. -/
structure Request where
  jsonrpc : String
  method : String
  params : List Json
  id : Json

/-- `acmjson.UnmarshalCmd`: look up the method (`UnregisteredMethod` when
absent), validate the positional count against
`[required, required + optional]` (`NumParams` outside that range), then
assign each positional entry and default the uncovered optionals. -/
def UnmarshalCmd (r : Request) : Except ErrorCode CmdVal :=
  match lookupMethod r.method with
  | none => .error ErrUnregisteredMethod
  | some schema =>
      if r.params.length < numReq schema.fields ∨ schema.fields.length < r.params.length then
        .error ErrNumParams
      else
        match unmarshalFields schema.fields r.params with
        | .ok fs => .ok ⟨schema.method, fs⟩
        | .error e => .error e

/-- Walk the fields for the generic constructor: provided arguments are
assigned with the unmarshaller's coercion rules; the remaining optional
fields are left unset.  (Spec section 4.4 speaks of filling in defaults for
omitted trailing optionals, but the tests pin the opposite: the generic
constructor leaves omitted optionals unset — e.g. `NewCmd("getblock","123")`
must marshal to `params:["123"]`, which a defaulted `verbose` field would
make impossible.  The tests are the authority here.) -/
def assignArgs : List CmdField → List Json → Except ErrorCode (List (Option Json))
  | [], [] => .ok []
  | [], _ :: _ => .error ErrNumParams
  | _ :: fs, [] =>
      match assignArgs fs [] with
      | .ok rest => .ok (none :: rest)
      | .error e => .error e
  | f :: fs, a :: args =>
      match assignField f a with
      | .ok v =>
          match assignArgs fs args with
          | .ok rest => .ok (v :: rest)
          | .error e => .error e
      | .error e => .error e

/-- `acmjson.NewCmd`: the generic positional builder.  Looks up the method,
validates the argument count, and assigns each positional argument with the
same coercion rules the unmarshaller applies. -/
def NewCmd (method : String) (args : List Json) : Except ErrorCode CmdVal :=
  match lookupMethod method with
  | none => .error ErrUnregisteredMethod
  | some schema =>
      if args.length < numReq schema.fields ∨ schema.fields.length < args.length then
        .error ErrNumParams
      else
        match assignArgs schema.fields args with
        | .ok fs => .ok ⟨schema.method, fs⟩
        | .error e => .error e

/-- One step of the right trim: an unset head in front of an already empty
trimmed tail disappears; otherwise the head is kept. -/
def consTrim (o : Option Json) (rest : List (Option Json)) : List (Option Json) :=
  match rest, o with
  | [], none => []
  | rest, o => o :: rest

/-- Drop the trailing unset optionals of a command value (spec section 4.5:
the emitted array is truncated to the last present value; unset optionals
before it are emitted as `null`). -/
def dropTrailingUnset : List (Option Json) → List (Option Json)
  | [] => []
  | o :: os => consTrim o (dropTrailingUnset os)

/-- The positional JSON array of a field list, with `null` standing for each
remaining unset optional. -/
def rawParams (fs : List (Option Json)) : List Json :=
  fs.map (fun o => o.getD .null)

/-- The `params` array the marshaller emits: the field values up to the last
set field, right-trimmed so the array has no trailing `null`s. -/
def marshalParams (fs : List (Option Json)) : List Json :=
  rawParams (dropTrailingUnset fs)

/-- Serialize the request envelope: a JSON object with keys in the order
`jsonrpc`, `method`, `params`, `id`, with `jsonrpc` fixed at `"1.0"` and
`params` always present (spec sections 4.2 and 6). -/
def renderRequest (id : Json) (method : String) (ps : List Json) : String :=
  render (.obj [(("jsonrpc"), .str ("1.0")), (("method"), .str method),
                (("params"), .arr ps), (("id"), id)])

/-- `acmjson.MarshalCmd`: look up the command's method in the registry
(`UnregisteredMethod` when absent) and emit the serialized envelope with the
right-trimmed positional array. -/
def MarshalCmd (id : Json) (c : CmdVal) : Except ErrorCode String :=
  match lookupMethod c.method with
  | none => .error ErrUnregisteredMethod
  | some _ => .ok (renderRequest id c.method (marshalParams c.fields))

/-! ### Typed constructors

Modelled from the spec (section 4.7): each catalog method has convenience
constructors taking the required parameters and a nullable value per
optional parameter, and storing them field by field.  The argument types
mirror the Go constructors (`*int32` becomes `Option Int` with the range
carried by the schema's kind, `[]OutPoint` becomes a list of the record
below, and so on). -/

/-- The `acmjson.OutPoint` record (`hash string`, `index uint32`). -/
structure OutPoint where
  hash : String
  index : Nat
  deriving DecidableEq, Repr

/-- The JSON object form of an `OutPoint`, keys in declaration order. -/
def OutPoint.toJson (op : OutPoint) : Json :=
  .obj [(("hash"), .str op.hash), (("index"), .num (.int (Int.ofNat op.index)))]

/-- The `acmjson.RawTxInput` record (`txid`, `vout`, `scriptPubKey`,
`redeemScript`). -/
structure RawTxInput where
  txid : String
  vout : Nat
  scriptPubKey : String
  redeemScript : String
  deriving DecidableEq, Repr

/-- The JSON object form of a `RawTxInput`, keys in declaration order. -/
def RawTxInput.toJson (t : RawTxInput) : Json :=
  .obj [(("txid"), .str t.txid), (("vout"), .num (.int (Int.ofNat t.vout))),
        (("scriptPubKey"), .str t.scriptPubKey),
        (("redeemScript"), .str t.redeemScript)]

/-- `acmjson.NewAddNodeCmd`. -/
def NewAddNodeCmd (addr subCmd : String) : CmdVal :=
  ⟨("addnode"), [some (.str addr), some (.str subCmd)]⟩

/-- `acmjson.NewGetBlockCmd`. -/
def NewGetBlockCmd (hash : String) (verbose verboseTx : Option Bool) : CmdVal :=
  ⟨("getblock"), [some (.str hash), verbose.map .bool, verboseTx.map .bool]⟩

/-- `acmjson.NewGetBlockHashCmd`. -/
def NewGetBlockHashCmd (index : Int) : CmdVal :=
  ⟨("getblockhash"), [some (.num (.int index))]⟩

/-- `acmjson.NewGetBalanceCmd`. -/
def NewGetBalanceCmd (account : Option String) (minConf : Option Int) : CmdVal :=
  ⟨("getbalance"), [account.map .str, minConf.map (fun i => .num (.int i))]⟩

/-- `acmjson.NewGetBestBlockHashCmd`. -/
def NewGetBestBlockHashCmd : CmdVal :=
  ⟨("getbestblockhash"), []⟩

/-- `acmjson.NewVerifyChainCmd`. -/
def NewVerifyChainCmd (checkLevel checkDepth : Option Int) : CmdVal :=
  ⟨("verifychain"), [checkLevel.map (fun i => .num (.int i)),
                     checkDepth.map (fun i => .num (.int i))]⟩

/-- `acmjson.NewSignRawTransactionCmd`. -/
def NewSignRawTransactionCmd (rawTx : String) (inputs : Option (List RawTxInput))
    (privKeys : Option (List String)) (flags : Option String) : CmdVal :=
  ⟨("signrawtransaction"),
   [some (.str rawTx),
    inputs.map (fun xs => .arr (xs.map RawTxInput.toJson)),
    privKeys.map (fun xs => .arr (xs.map .str)),
    flags.map .str]⟩

/-- `acmjson.NewSendManyCmd` (the amounts mapping keeps its key order). -/
def NewSendManyCmd (fromAccount : String) (amounts : List (String × JNum))
    (minConf : Option Int) (comment : Option String) : CmdVal :=
  ⟨("sendmany"),
   [some (.str fromAccount),
    some (.obj (amounts.map (fun p => (p.1, .num p.2)))),
    minConf.map (fun i => .num (.int i)),
    comment.map .str]⟩

/-- `acmjson.NewNotifySpentCmd`. -/
def NewNotifySpentCmd (ops : List OutPoint) : CmdVal :=
  ⟨("notifyspent"), [some (.arr (ops.map OutPoint.toJson))]⟩

/-- `acmjson.NewNotifyNewTransactionsCmd`. -/
def NewNotifyNewTransactionsCmd (verbose : Option Bool) : CmdVal :=
  ⟨("notifynewtransactions"), [verbose.map .bool]⟩

/-! ### The `TemplateRequest` decoder (getblocktemplate)

Modelled from the spec: the spec's command catalog includes
`getblocktemplate` with a nested template-request record, but describes no
more of its decoding; the behavior embedded here is the one pinned by
`TestChainSvrCmds` ("template request with tweaks" and "tweaks 2") and
`TestChainSvrCmdErrors`: after the generic object decode, the `sigoplimit`
and `sizelimit` members accept a JSON boolean stored as is, and a JSON
number stored as a 64-bit integer (the expected decoded values are
`int64(500)` and `int64(100000000)`).  A JSON number arrives as a float64
and is stored through an integrality check against the 64-bit integer form,
so a number whose value is integral qualifies whatever its written form
(`500.0` is stored as `int64(500)`), while a fractional number has no
64-bit integer form and, per the spec's general coercion rule that an
out-of-range number for an integer target is `InvalidType` (section 4.6),
so does a number beyond the 64-bit range; both are rejected like any other
non-number non-boolean, with an `Error` carrying the `ErrInvalidType` code.
Only these two members are modelled; the remaining members decode through
the generic object decoder and are orthogonal to the claims. -/

/-- The value stored in `TemplateRequest.SigOpLimit` / `SizeLimit`: unset,
a 64-bit integer, or a boolean. -/
inductive TRLimit where
  | unset
  | int (i : Int)
  | bool (b : Bool)
  deriving DecidableEq, Repr

/-- Look up a member of a decoded JSON object by key. -/
def lookupKey (kvs : List (String × Json)) (k : String) : Option Json :=
  (kvs.find? (fun p => p.1 == k)).map (fun p => p.2)

/-- The 64-bit integer form of a JSON number, when it has one: an integer
within the 64-bit range, or a decimal whose fractional digits carry no
value (an integral-valued written form such as `500.0`) whose quotient is
within the 64-bit range. -/
def jnumToInt64 : JNum → Option Int
  | .int i => if -(2 ^ 63) ≤ i ∧ i < 2 ^ 63 then some i else none
  | .dec m e =>
      if m % (10 ^ e : Int) = 0 then
        if -(2 ^ 63) ≤ m / (10 ^ e : Int) ∧ m / (10 ^ e : Int) < 2 ^ 63 then
          some (m / (10 ^ e : Int))
        else none
      else none

/-- Convert one limit member: absent or `null` stays unset, a boolean is
stored as is, a number with a 64-bit integer form is stored as that 64-bit
integer, anything else is an `Error` with the `ErrInvalidType` code. -/
def convertTemplateRequestField (name : String) (j : Option Json) :
    Except AcmError TRLimit :=
  match j with
  | none => .ok .unset
  | some .null => .ok .unset
  | some (.bool b) => .ok (.bool b)
  | some (.num n) =>
      match jnumToInt64 n with
      | some i => .ok (.int i)
      | none => .error ⟨ErrInvalidType, "Invalid " ++ name ++ " format"⟩
  | some _ => .error ⟨ErrInvalidType, "Invalid " ++ name ++ " format"⟩

/-- The part of `acmjson.TemplateRequest` the claims exercise. -/
structure TemplateRequest where
  sigOpLimit : TRLimit
  sizeLimit : TRLimit
  deriving DecidableEq, Repr

/-- The custom JSON decoding of `TemplateRequest`, restricted to its
`sigoplimit` and `sizelimit` members. -/
def decodeTemplateRequest (kvs : List (String × Json)) :
    Except AcmError TemplateRequest :=
  match convertTemplateRequestField ("sigoplimit") (lookupKey kvs ("sigoplimit")) with
  | .error e => .error e
  | .ok sig =>
    match convertTemplateRequestField ("sizelimit") (lookupKey kvs ("sizelimit")) with
    | .error e => .error e
    | .ok siz => .ok ⟨sig, siz⟩

/-! ### Well-formedness predicates -/

/-- A stored field value is well formed: an unset entry requires the field
to be optional, and a set entry must conform to the field's kind. -/
def fieldOk (f : CmdField) : Option Json → Bool
  | none => f.optional
  | some j => kindHolds f.kind j

/-- Field-wise well-formedness of a command value against a field list:
exactly the values the typed constructors can produce. -/
def wfFields : List CmdField → List (Option Json) → Bool
  | [], [] => true
  | f :: fs, o :: os => fieldOk f o && wfFields fs os
  | _, _ => false

/-- The schema invariant that every required field precedes every optional
field (spec section 3). -/
def reqBeforeOpt : List CmdField → Bool
  | [] => true
  | f :: fs => if f.optional then fs.all (fun g => g.optional) else reqBeforeOpt fs

/-- The supplied positional values are well typed: each conforms to its
field's kind in natural form. -/
def wellTypedPrefix : List CmdField → List Json → Bool
  | _, [] => true
  | [], _ :: _ => false
  | f :: fs, p :: ps => kindHolds f.kind p && wellTypedPrefix fs ps

example : reqBeforeOpt getblockSchema.fields = true := by decide

example : registry.all (fun s => reqBeforeOpt s.fields) = true := by decide

example :
    MarshalCmd (.num (.int 1)) (NewGetBlockCmd ("123") none none) =
      .ok ("\x7b\"jsonrpc\":\"1.0\",\"method\":\"getblock\",\"params\":[\"123\"],\"id\":1\x7d") := by
  rfl

example :
    UnmarshalCmd ⟨("1.0"), ("getblock"), [.str ("123")], .num (.int 1)⟩ =
      .ok ⟨("getblock"), [some (.str ("123")), some (.bool true), some (.bool false)]⟩ := by
  rfl

example :
    NewCmd ("notifyspent") [.str ("[\x7b\"hash\":\"123\",\"index\":0\x7d]")] =
      .ok (NewNotifySpentCmd [⟨("123"), 0⟩]) := by rfl

/-! ### Lemmas about assignment and the marshal/unmarshal walk -/

theorem assignParam_id (k : Kind) (j : Json) (h : kindHolds k j = true) :
    assignParam k j = .ok j := by
  simp [assignParam, h]

theorem assignField_some (f : CmdField) (j : Json) (h : kindHolds f.kind j = true) :
    assignField f j = .ok (some j) := by
  cases j with
  | null => rw [kindHolds_null] at h; exact absurd h (by simp)
  | _ => simp [assignField, assignParam_id _ _ h]

theorem assignField_null (f : CmdField) (h : f.optional = true) :
    assignField f .null = .ok none := by
  simp [assignField, h]

theorem unmarshalFields_nil (fs : List CmdField) :
    unmarshalFields fs [] = .ok (fs.map (fun f => f.dflt)) := by
  induction fs with
  | nil => rfl
  | cons f fs ih => simp [unmarshalFields, ih]

theorem consTrim_some (j : Json) (rest : List (Option Json)) :
    consTrim (some j) rest = some j :: rest := by
  cases rest <;> rfl

theorem dropTrailingUnset_cons_some (j : Json) (os : List (Option Json)) :
    dropTrailingUnset (some j :: os) = some j :: dropTrailingUnset os := by
  rw [dropTrailingUnset, consTrim_some]

theorem dropTrailingUnset_cons_none (os : List (Option Json)) :
    dropTrailingUnset (none :: os) =
      (match dropTrailingUnset os with
       | [] => []
       | r :: rs => none :: r :: rs) := by
  rw [dropTrailingUnset]
  cases h : dropTrailingUnset os <;> rfl

theorem dropTrailingUnset_length_le (os : List (Option Json)) :
    (dropTrailingUnset os).length ≤ os.length := by
  induction os with
  | nil => simp [dropTrailingUnset]
  | cons o os ih =>
      cases o with
      | some j => rw [dropTrailingUnset_cons_some]; simpa using ih
      | none =>
          rw [dropTrailingUnset_cons_none]
          cases h : dropTrailingUnset os with
          | nil => simp
          | cons r rs => rw [h] at ih; simpa using ih

theorem wfFields_length (fs : List CmdField) (os : List (Option Json))
    (h : wfFields fs os = true) : os.length = fs.length := by
  induction fs generalizing os with
  | nil => cases os with
      | nil => rfl
      | cons o os => simp [wfFields] at h
  | cons f fs ih =>
      cases os with
      | nil => simp [wfFields] at h
      | cons o os =>
          have h2 : wfFields fs os = true := by
            simpa [wfFields, Bool.and_eq_true] using (And.right (by simpa [wfFields, Bool.and_eq_true] using h))
          simp [ih os h2]

theorem numReq_le_dropTrailingUnset (fs : List CmdField) (os : List (Option Json))
    (hr : reqBeforeOpt fs = true) (h : wfFields fs os = true) :
    numReq fs ≤ (dropTrailingUnset os).length := by
  induction fs generalizing os with
  | nil => simp [numReq]
  | cons f fs ih =>
      cases os with
      | nil => simp [wfFields] at h
      | cons o os =>
          obtain ⟨h1, h2⟩ : fieldOk f o = true ∧ wfFields fs os = true := by
            simpa [wfFields, Bool.and_eq_true] using h
          by_cases hopt : f.optional = true
          · simp [numReq, List.takeWhile, hopt]
          · have hreq : f.optional = false := by simpa using hopt
            cases o with
            | none => simp [fieldOk, hreq] at h1
            | some j =>
                rw [dropTrailingUnset_cons_some]
                have hr2 : reqBeforeOpt fs = true := by simpa [reqBeforeOpt, hreq] using hr
                have : numReq (f :: fs) = numReq fs + 1 := by
                  simp [numReq, List.takeWhile, hreq]
                rw [this]
                simpa using Nat.succ_le_succ (ih os hr2 h2)

theorem roundtripFields (fs : List CmdField) (os : List (Option Json))
    (h : wfFields fs os = true) :
    unmarshalFields fs (marshalParams os) =
      .ok (dropTrailingUnset os ++
           (fs.drop (dropTrailingUnset os).length).map (fun f => f.dflt)) := by
  induction os generalizing fs with
  | nil =>
      cases fs with
      | nil => rfl
      | cons f fs => simp [wfFields] at h
  | cons o os ih =>
      cases fs with
      | nil => simp [wfFields] at h
      | cons f fs =>
          obtain ⟨h1, h2⟩ : fieldOk f o = true ∧ wfFields fs os = true := by
            simpa [wfFields, Bool.and_eq_true] using h
          have ihv := ih fs h2
          simp only [marshalParams] at ihv ⊢
          cases o with
          | some j =>
              have hk : kindHolds f.kind j = true := h1
              rw [dropTrailingUnset_cons_some]
              simp only [rawParams, List.map_cons, Option.getD_some]
              rw [unmarshalFields, assignField_some f j hk]
              simp only [rawParams] at ihv
              rw [ihv]
              simp [List.drop_succ_cons]
          | none =>
              have hopt : f.optional = true := h1
              rw [dropTrailingUnset_cons_none]
              cases hdtu : dropTrailingUnset os with
              | nil =>
                  simp only [rawParams, List.map_nil]
                  rw [unmarshalFields_nil]
                  simp
              | cons r rs =>
                  rw [hdtu] at ihv
                  simp only [rawParams, List.map_cons, Option.getD_none] at ihv ⊢
                  rw [unmarshalFields, assignField_null f hopt, ihv]
                  simp [List.drop_succ_cons]

theorem unmarshalFields_wellTyped (fs : List CmdField) (ps : List Json)
    (hlen : ps.length ≤ fs.length) (hwt : wellTypedPrefix fs ps = true) :
    ∃ os, unmarshalFields fs ps = .ok os := by
  induction fs generalizing ps with
  | nil =>
      cases ps with
      | nil => exact ⟨[], rfl⟩
      | cons p ps => simp at hlen
  | cons f fs ih =>
      cases ps with
      | nil => exact ⟨_, unmarshalFields_nil (f :: fs)⟩
      | cons p ps =>
          obtain ⟨hk, hwt2⟩ : kindHolds f.kind p = true ∧ wellTypedPrefix fs ps = true := by
            simpa [wellTypedPrefix, Bool.and_eq_true] using hwt
          obtain ⟨os, hos⟩ := ih ps (by simpa using hlen) hwt2
          exact ⟨some p :: os, by rw [unmarshalFields, assignField_some f p hk, hos]⟩

/-- Decidable equality for `Except` results, used to evaluate the codec on
concrete inputs. -/
instance instDecEqExcept {α β : Type} [DecidableEq α] [DecidableEq β] :
    DecidableEq (Except α β)
  | .ok a, .ok b =>
      if h : a = b then .isTrue (by rw [h]) else .isFalse (fun he => h (Except.ok.inj he))
  | .error a, .error b =>
      if h : a = b then .isTrue (by rw [h]) else .isFalse (fun he => h (Except.error.inj he))
  | .ok _, .error _ => .isFalse (fun he => Except.noConfusion he)
  | .error _, .ok _ => .isFalse (fun he => Except.noConfusion he)

/-- The result the round-trip identity of the spec predicts (stated from the
spec's words for comparison with the code's actual behavior): every field set
in the input keeps its value, and every unset optional receives its declared
default, wherever it sits. -/
def fillDefaults : List CmdField → List (Option Json) → List (Option Json)
  | [], _ => []
  | _, [] => []
  | f :: fs, o :: os =>
      (match o with
       | some j => some j
       | none => f.dflt) :: fillDefaults fs os

theorem lookup_mem (s : CmdSchema) (h : s ∈ registry) :
    lookupMethod s.method = some s := by
  fin_cases h <;> rfl

theorem registry_reqBeforeOpt (s : CmdSchema) (h : s ∈ registry) :
    reqBeforeOpt s.fields = true := by
  fin_cases h <;> decide

theorem marshalParams_length (os : List (Option Json)) :
    (marshalParams os).length = (dropTrailingUnset os).length := by
  simp [marshalParams, rawParams]

theorem UnmarshalCmd_marshalParams (s : CmdSchema) (hs : s ∈ registry)
    (os : List (Option Json)) (h : wfFields s.fields os = true)
    (rpc : String) (id : Json) :
    UnmarshalCmd ⟨rpc, s.method, marshalParams os, id⟩ =
      .ok ⟨s.method, dropTrailingUnset os ++
            (s.fields.drop (dropTrailingUnset os).length).map (fun f => f.dflt)⟩ := by
  have hlook := lookup_mem s hs
  have hreq := registry_reqBeforeOpt s hs
  have h1 : numReq s.fields ≤ (marshalParams os).length := by
    rw [marshalParams_length]
    exact numReq_le_dropTrailingUnset _ _ hreq h
  have h2 : (marshalParams os).length ≤ s.fields.length := by
    rw [marshalParams_length]
    exact le_trans (dropTrailingUnset_length_le os) (le_of_eq (wfFields_length _ _ h))
  simp only [UnmarshalCmd, hlook]
  rw [if_neg (by simp only [not_or, not_lt]; exact ⟨h1, h2⟩)]
  rw [roundtripFields _ _ h]

/-- One step of trimming trailing `null`s from a JSON array. -/
def consTrimNull (j : Json) (rest : List Json) : List Json :=
  match rest, j with
  | [], .null => []
  | rest, j => j :: rest

/-- Trim the trailing `null`s of a JSON array (stated from the spec's
"no trailing nulls" guarantee: an array without trailing nulls is a fixed
point of this function). -/
def dropTrailingNulls : List Json → List Json
  | [] => []
  | j :: js => consTrimNull j (dropTrailingNulls js)

/-- The set fields of a command value form a prefix: no set field follows an
unset one. -/
def setBeforeUnset : List (Option Json) → Bool
  | [] => true
  | none :: os => os.all (fun o => o.isNone)
  | some _ :: os => setBeforeUnset os

theorem kindHolds_ne_null (k : Kind) (j : Json) (h : kindHolds k j = true) :
    j ≠ .null := by
  intro he
  rw [he, kindHolds_null] at h
  exact absurd h (by simp)

theorem consTrimNull_ne_null (j : Json) (rest : List Json) (h : j ≠ .null) :
    consTrimNull j rest = j :: rest := by
  cases rest with
  | nil => cases j <;> simp_all [consTrimNull]
  | cons r rs => rfl

theorem unmarshalFields_wellTyped_eq (fs : List CmdField) (ps : List Json)
    (hlen : ps.length ≤ fs.length) (hwt : wellTypedPrefix fs ps = true) :
    unmarshalFields fs ps =
      .ok (ps.map some ++ (fs.drop ps.length).map (fun f => f.dflt)) := by
  induction fs generalizing ps with
  | nil =>
      cases ps with
      | nil => rfl
      | cons p ps => simp at hlen
  | cons f fs ih =>
      cases ps with
      | nil => simpa using unmarshalFields_nil (f :: fs)
      | cons p ps =>
          obtain ⟨hk, hwt2⟩ : kindHolds f.kind p = true ∧ wellTypedPrefix fs ps = true := by
            simpa [wellTypedPrefix, Bool.and_eq_true] using hwt
          rw [unmarshalFields, assignField_some f p hk, ih ps (by simpa using hlen) hwt2]
          simp

theorem marshalParams_no_trailing_null (fs : List CmdField) (os : List (Option Json))
    (h : wfFields fs os = true) :
    dropTrailingNulls (marshalParams os) = marshalParams os := by
  induction os generalizing fs with
  | nil => rfl
  | cons o os ih =>
      cases fs with
      | nil => simp [wfFields] at h
      | cons f fs =>
          obtain ⟨h1, h2⟩ : fieldOk f o = true ∧ wfFields fs os = true := by
            simpa [wfFields, Bool.and_eq_true] using h
          have ihv := ih fs h2
          simp only [marshalParams] at ihv ⊢
          cases o with
          | some j =>
              have hne : j ≠ .null := kindHolds_ne_null f.kind j h1
              rw [dropTrailingUnset_cons_some]
              simp only [rawParams, List.map_cons, Option.getD_some]
              rw [dropTrailingNulls]
              simp only [rawParams] at ihv
              rw [ihv, consTrimNull_ne_null j _ hne]
          | none =>
              rw [dropTrailingUnset_cons_none]
              cases hdtu : dropTrailingUnset os with
              | nil => rfl
              | cons r rs =>
                  rw [hdtu] at ihv
                  simp only [rawParams, List.map_cons, Option.getD_none] at ihv ⊢
                  rw [dropTrailingNulls, ihv]
                  rfl

theorem dropTrailingUnset_allNone (os : List (Option Json))
    (h : os.all (fun o => o.isNone) = true) : dropTrailingUnset os = [] := by
  induction os with
  | nil => rfl
  | cons o os ih =>
      obtain ⟨h1, h2⟩ : o.isNone = true ∧ os.all (fun o => o.isNone) = true := by
        simpa [List.all_cons, Bool.and_eq_true] using h
      cases o with
      | some j => simp at h1
      | none => rw [dropTrailingUnset, ih h2]; rfl

theorem marshalParams_length_setPrefix (os : List (Option Json))
    (h : setBeforeUnset os = true) :
    (marshalParams os).length = os.countP (fun o => o.isSome) := by
  induction os with
  | nil => rfl
  | cons o os ih =>
      cases o with
      | some j =>
          have h2 : setBeforeUnset os = true := by simpa [setBeforeUnset] using h
          simp only [marshalParams, rawParams] at ih ⊢
          rw [dropTrailingUnset_cons_some]
          simp [List.countP_cons, ih h2]
      | none =>
          have h2 : os.all (fun o => o.isNone) = true := by
            simpa [setBeforeUnset] using h
          simp only [marshalParams, rawParams]
          rw [dropTrailingUnset_cons_none, dropTrailingUnset_allNone os h2]
          simp only [List.map_nil, List.length_nil, List.countP_cons]
          simp only [Option.isSome_none, Bool.false_eq_true, if_false, Nat.add_zero]
          symm
          rw [List.countP_eq_zero]
          intro o ho
          have := (List.all_eq_true.mp h2) o ho
          cases o with
          | some j => simp at this
          | none => simp

theorem strMerge (a b c : String) (h : a ++ b = c) (x : String) :
    a ++ (b ++ x) = c ++ x := by
  rw [← String.append_assoc, h]

theorem marshalParams_length_claim (fs : List CmdField) (os : List (Option Json))
    (hr : reqBeforeOpt fs = true) (h : wfFields fs os = true)
    (hp : setBeforeUnset os = true) :
    (marshalParams os).length =
      numReq fs + (os.drop (numReq fs)).countP (fun o => o.isSome) := by
  induction fs generalizing os with
  | nil =>
      cases os with
      | nil => rfl
      | cons o os => simp [wfFields] at h
  | cons f fs ih =>
      cases os with
      | nil => simp [wfFields] at h
      | cons o os =>
          obtain ⟨h1, h2⟩ : fieldOk f o = true ∧ wfFields fs os = true := by
            simpa [wfFields, Bool.and_eq_true] using h
          by_cases hopt : f.optional = true
          · have hz : numReq (f :: fs) = 0 := by
              simp [numReq, List.takeWhile, hopt]
            rw [hz]
            simpa using marshalParams_length_setPrefix (o :: os) hp
          · have hreq : f.optional = false := by simpa using hopt
            cases o with
            | none => simp [fieldOk, hreq] at h1
            | some j =>
                have hnum : numReq (f :: fs) = numReq fs + 1 := by
                  simp [numReq, List.takeWhile, hreq]
                have hsp : setBeforeUnset os = true := by
                  simpa [setBeforeUnset] using hp
                have hr2 : reqBeforeOpt fs = true := by
                  simpa [reqBeforeOpt, hreq] using hr
                have ihv := ih os hr2 h2 hsp
                simp only [marshalParams, rawParams] at ihv ⊢
                rw [dropTrailingUnset_cons_some, hnum]
                simp only [List.map_cons, List.length_cons, List.drop_succ_cons]
                omega

theorem assignField_of_assignParam (f : CmdField) (j : Json) (v : Json)
    (hne : j ≠ .null) (h : assignParam f.kind j = .ok v) :
    assignField f j = .ok (some v) := by
  cases j <;> simp_all [assignField]

theorem assignArgs_tail_unset (fs : List CmdField) :
    assignArgs fs [] = .ok (fs.map (fun _ => none)) := by
  induction fs with
  | nil => rfl
  | cons f fs ih => rw [assignArgs, ih]; rfl

theorem assignArgs_cons_ok (f : CmdField) (fs : List CmdField) (a : Json)
    (args : List Json) (v : Option Json) (os : List (Option Json))
    (h1 : assignField f a = .ok v) (h2 : assignArgs fs args = .ok os) :
    assignArgs (f :: fs) (a :: args) = .ok (v :: os) := by
  rw [assignArgs, h1, h2]

theorem NewCmd_ok (m : String) (s : CmdSchema) (hl : lookupMethod m = some s)
    (args : List Json) (os : List (Option Json))
    (hlen : ¬(args.length < numReq s.fields ∨ s.fields.length < args.length))
    (ha : assignArgs s.fields args = .ok os) :
    NewCmd m args = .ok ⟨s.method, os⟩ := by
  simp only [NewCmd, hl]
  rw [if_neg hlen, ha]

theorem kindHolds_outpoints (ops : List OutPoint)
    (h : ops.all (fun op => op.index < 2 ^ 32) = true) :
    kindHoldsList outPointKind (ops.map OutPoint.toJson) = true := by
  induction ops with
  | nil => rfl
  | cons op ops ih =>
      obtain ⟨h1, h2⟩ : op.index < 2 ^ 32 ∧ ops.all (fun op => op.index < 2 ^ 32) = true := by
        simpa [List.all_cons, Bool.and_eq_true] using h
      have hidx : (Int.ofNat op.index) < 2 ^ 32 := by
        simp only [Int.ofNat_eq_natCast]
        omega
      have hnn : (0 : Int) ≤ Int.ofNat op.index := Int.natCast_nonneg op.index
      rw [List.map_cons, kindHoldsList, ih h2]
      simp only [kindHolds, kindHoldsObj, OutPoint.toJson, outPointKind,
        decide_eq_true hidx, decide_eq_true hnn]
      simp [h1]

theorem kindHolds_strings (xs : List String) :
    kindHoldsList .kString (xs.map .str) = true := by
  induction xs with
  | nil => rfl
  | cons x xs ih =>
      rw [List.map_cons, kindHoldsList, ih]
      rfl

theorem kindHolds_amounts (amounts : List (String × JNum)) :
    kindHoldsVals .kFloat (amounts.map (fun p => (p.1, .num p.2))) = true := by
  induction amounts with
  | nil => rfl
  | cons a amounts ih =>
      simp only [List.map_cons]
      rw [kindHoldsVals, ih]
      rfl

theorem kindHolds_rawtxinputs (xs : List RawTxInput)
    (h : xs.all (fun t => t.vout < 2 ^ 32) = true) :
    kindHoldsList rawTxInputKind (xs.map RawTxInput.toJson) = true := by
  induction xs with
  | nil => rfl
  | cons t xs ih =>
      obtain ⟨h1, h2⟩ : t.vout < 2 ^ 32 ∧ xs.all (fun t => t.vout < 2 ^ 32) = true := by
        simpa [List.all_cons, Bool.and_eq_true] using h
      have hidx : (Int.ofNat t.vout) < 2 ^ 32 := by
        simp only [Int.ofNat_eq_natCast]
        omega
      have hnn : (0 : Int) ≤ Int.ofNat t.vout := Int.natCast_nonneg t.vout
      rw [List.map_cons, kindHoldsList, ih h2]
      simp only [kindHolds, kindHoldsObj, RawTxInput.toJson, rawTxInputKind,
        decide_eq_true hidx, decide_eq_true hnn]
      simp [h1]

theorem renderRequest_shape (id : Json) (m : String) (ps : List Json) :
    renderRequest id m ps =
      "\x7b\"jsonrpc\":\"1.0\",\"method\":" ++ (renderStr m ++ (",\"params\":[" ++
        (renderList ps ++ ("],\"id\":" ++ (render id ++ "\x7d"))))) := by
  have e1 : renderStr ("jsonrpc") = "\"jsonrpc\"" := by decide
  have e2 : renderStr ("1.0") = "\"1.0\"" := by decide
  have e3 : renderStr ("method") = "\"method\"" := by decide
  have e4 : renderStr ("params") = "\"params\"" := by decide
  have e5 : renderStr ("id") = "\"id\"" := by decide
  rw [renderRequest]
  simp only [render, renderKVs]
  rw [e1, e2, e3, e4, e5]
  simp only [String.append_assoc]
  rw [strMerge ("\x7b") ("\"jsonrpc\"") ("\x7b\"jsonrpc\"") rfl,
      strMerge ("\x7b\"jsonrpc\"") (":") ("\x7b\"jsonrpc\":") rfl,
      strMerge ("\x7b\"jsonrpc\":") ("\"1.0\"") ("\x7b\"jsonrpc\":\"1.0\"") rfl,
      strMerge ("\x7b\"jsonrpc\":\"1.0\"") (",") ("\x7b\"jsonrpc\":\"1.0\",") rfl,
      strMerge ("\x7b\"jsonrpc\":\"1.0\",") ("\"method\"") ("\x7b\"jsonrpc\":\"1.0\",\"method\"") rfl,
      strMerge ("\x7b\"jsonrpc\":\"1.0\",\"method\"") (":") ("\x7b\"jsonrpc\":\"1.0\",\"method\":") rfl,
      strMerge (",") ("\"params\"") (",\"params\"") rfl,
      strMerge (",\"params\"") (":") (",\"params\":") rfl,
      strMerge (",\"params\":") ("[") (",\"params\":[") rfl,
      strMerge ("]") (",") ("],") rfl,
      strMerge ("],") ("\"id\"") ("],\"id\"") rfl,
      strMerge ("],\"id\"") (":") ("],\"id\":") rfl]

/-! ### The claims -/

/-- C1 (amended): for every registered method and every well-formed command
value V (the values the typed constructors produce), unmarshalling the
marshalled request yields V on every field up to the last set field —
including unset optionals there, which travel as `null` and come back unset,
not defaulted — while the fields after the last set one receive their
declared defaults (and stay unset without one). -/
theorem C1_marshal_unmarshal_roundtrip (s : CmdSchema) (hs : s ∈ registry)
    (os : List (Option Json)) (h : wfFields s.fields os = true)
    (rpc : String) (id : Json) :
    UnmarshalCmd ⟨rpc, s.method, marshalParams os, id⟩ =
      .ok ⟨s.method, dropTrailingUnset os ++
            (s.fields.drop (dropTrailingUnset os).length).map (fun f => f.dflt)⟩ :=
  UnmarshalCmd_marshalParams s hs os h rpc id

/-- C1 witness: the round-trip theorem applied to the getblock value with
both optionals unset reproduces the defaulted value the tests expect. -/
theorem C1_marshal_unmarshal_roundtrip_witness :
    UnmarshalCmd ⟨("1.0"), ("getblock"),
        marshalParams (NewGetBlockCmd ("123") none none).fields, .num (.int 1)⟩ =
      .ok ⟨("getblock"), [some (.str ("123")), some (.bool true), some (.bool false)]⟩ := by
  have h := C1_marshal_unmarshal_roundtrip getblockSchema (by simp [registry])
      (NewGetBlockCmd ("123") none none).fields (by decide) ("1.0") (.num (.int 1))
  exact h.trans (by decide)

/-- C1 counterexample: the typed-constructor value
`NewGetBlockCmd "123" none (some true)` is well formed, but its round trip
does not populate the unset `verbose` field with its declared default `true`
(the field travels as `null` and comes back unset), so the claimed fieldwise
defaulting identity fails at this input. -/
theorem C1_roundtrip_counterexample :
    wfFields getblockSchema.fields (NewGetBlockCmd ("123") none (some true)).fields = true ∧
    ¬ (UnmarshalCmd ⟨("1.0"), ("getblock"),
          marshalParams (NewGetBlockCmd ("123") none (some true)).fields, .num (.int 1)⟩ =
        .ok ⟨("getblock"),
          fillDefaults getblockSchema.fields
            (NewGetBlockCmd ("123") none (some true)).fields⟩) := by
  decide

/-- C2: for every registered method with required count R and optional count
O, unmarshalling succeeds on any envelope for that method whose params
length lies in [R, R+O] with well-typed values, and fails with the
`NumParams` error kind on any length outside that range; in particular
unmarshalling addnode with a single positional parameter yields `NumParams`.
No method of the embedded catalog carries a variadic tail. -/
theorem C2_arity (s : CmdSchema) (hs : s ∈ registry) (r : Request)
    (hm : r.method = s.method) :
    ((numReq s.fields ≤ r.params.length ∧ r.params.length ≤ s.fields.length ∧
        wellTypedPrefix s.fields r.params = true) →
      ∃ v, UnmarshalCmd r = .ok v) ∧
    ((r.params.length < numReq s.fields ∨ s.fields.length < r.params.length) →
      UnmarshalCmd r = .error ErrNumParams) ∧
    UnmarshalCmd ⟨("1.0"), ("addnode"), [.str ("127.0.0.1")], .num (.int 1)⟩ =
      .error ErrNumParams := by
  have hlook : lookupMethod r.method = some s := by rw [hm]; exact lookup_mem s hs
  refine ⟨?_, ?_, by decide⟩
  · rintro ⟨h1, h2, h3⟩
    refine ⟨⟨s.method, r.params.map some ++
        (s.fields.drop r.params.length).map (fun f => f.dflt)⟩, ?_⟩
    simp only [UnmarshalCmd, hlook]
    rw [if_neg (by simp only [not_or, not_lt]; exact ⟨h1, h2⟩)]
    rw [unmarshalFields_wellTyped_eq s.fields r.params h2 h3]
  · intro hbad
    simp only [UnmarshalCmd, hlook]
    rw [if_pos hbad]

/-- C2 witness: the NumParams direction applied to the addnode envelope with
one positional parameter (addnode requires two). -/
theorem C2_arity_witness :
    UnmarshalCmd ⟨("1.0"), ("addnode"), [.str ("127.0.0.1")], .num (.int 1)⟩ =
      .error ErrNumParams :=
  (C2_arity addnodeSchema (by simp [registry])
      ⟨("1.0"), ("addnode"), [.str ("127.0.0.1")], .num (.int 1)⟩ rfl).2.1 (by decide)

/-- C3: during unmarshal every optional field not covered by a positional
entry receives its declared default when one exists and stays unset
otherwise; concretely getblock with params ["123"] yields hash "123",
verbose true and verbosetx false, and verifychain with empty params yields
checklevel 3 and checkdepth 288. -/
theorem C3_defaults (s : CmdSchema) (hs : s ∈ registry) (r : Request)
    (hm : r.method = s.method)
    (h1 : numReq s.fields ≤ r.params.length)
    (h2 : r.params.length ≤ s.fields.length)
    (h3 : wellTypedPrefix s.fields r.params = true) :
    UnmarshalCmd r =
      .ok ⟨s.method, r.params.map some ++
            (s.fields.drop r.params.length).map (fun f => f.dflt)⟩ ∧
    UnmarshalCmd ⟨("1.0"), ("getblock"), [.str ("123")], .num (.int 1)⟩ =
      .ok ⟨("getblock"), [some (.str ("123")), some (.bool true), some (.bool false)]⟩ ∧
    UnmarshalCmd ⟨("1.0"), ("verifychain"), [], .num (.int 1)⟩ =
      .ok ⟨("verifychain"), [some (.num (.int 3)), some (.num (.int 288))]⟩ := by
  have hlook : lookupMethod r.method = some s := by rw [hm]; exact lookup_mem s hs
  refine ⟨?_, by decide, by decide⟩
  simp only [UnmarshalCmd, hlook]
  rw [if_neg (by simp only [not_or, not_lt]; exact ⟨h1, h2⟩)]
  rw [unmarshalFields_wellTyped_eq s.fields r.params h2 h3]

/-- C3 witness: the defaults theorem applied to a getbalance envelope with
one positional parameter: the uncovered minconf optional receives its
declared default 1. -/
theorem C3_defaults_witness :
    UnmarshalCmd ⟨("1.0"), ("getbalance"), [.str ("acct")], .num (.int 1)⟩ =
      .ok ⟨("getbalance"), [some (.str ("acct")), some (.num (.int 1))]⟩ := by
  have h := (C3_defaults getbalanceSchema (by simp [registry])
      ⟨("1.0"), ("getbalance"), [.str ("acct")], .num (.int 1)⟩ rfl
      (by decide) (by decide) (by decide)).1
  exact h.trans (by decide)

/-- C4 (amended): for a well-formed command value whose set fields form a
prefix (no set optional after an unset one), the emitted params array has
length equal to the required-field count plus the count of set optionals;
for every well-formed value the emitted array carries no trailing nulls (it
is a fixed point of trailing-null trimming); and the concrete encodings of
the tests hold: signrawtransaction with only the required field set emits
params ["001122"], getbalance with all optionals unset emits params []. -/
theorem C4_params_length (s : CmdSchema) (hs : s ∈ registry)
    (os : List (Option Json)) (h : wfFields s.fields os = true) :
    (setBeforeUnset os = true →
      (marshalParams os).length =
        numReq s.fields + (os.drop (numReq s.fields)).countP (fun o => o.isSome)) ∧
    dropTrailingNulls (marshalParams os) = marshalParams os ∧
    MarshalCmd (.num (.int 1)) (NewSignRawTransactionCmd ("001122") none none none) =
      .ok ("\x7b\"jsonrpc\":\"1.0\",\"method\":\"signrawtransaction\",\"params\":[\"001122\"],\"id\":1\x7d") ∧
    MarshalCmd (.num (.int 1)) (NewGetBalanceCmd none none) =
      .ok ("\x7b\"jsonrpc\":\"1.0\",\"method\":\"getbalance\",\"params\":[],\"id\":1\x7d") :=
  ⟨fun hp => marshalParams_length_claim s.fields os (registry_reqBeforeOpt s hs) h hp,
   marshalParams_no_trailing_null s.fields os h, by rfl, by rfl⟩

/-- C4 witness: the length law applied to the signrawtransaction value with
only the required field set: one required field, no set optionals, params
length one. -/
theorem C4_params_length_witness :
    (marshalParams (NewSignRawTransactionCmd ("001122") none none none).fields).length =
      numReq signrawtransactionSchema.fields +
        (((NewSignRawTransactionCmd ("001122") none none none).fields).drop
            (numReq signrawtransactionSchema.fields)).countP (fun o => o.isSome) :=
  (C4_params_length signrawtransactionSchema (by simp [registry])
      (NewSignRawTransactionCmd ("001122") none none none).fields (by decide)).1 (by decide)

/-- C4 counterexample: the well-formed getblock value with `verbose` unset
and `verbosetx` set emits params `["123",null,true]` of length 3, while the
claimed length (required fields plus set optionals) is 2. -/
theorem C4_params_length_counterexample :
    wfFields getblockSchema.fields (NewGetBlockCmd ("123") none (some true)).fields = true ∧
    ¬ ((marshalParams (NewGetBlockCmd ("123") none (some true)).fields).length =
        numReq getblockSchema.fields +
          (((NewGetBlockCmd ("123") none (some true)).fields).drop
              (numReq getblockSchema.fields)).countP (fun o => o.isSome)) := by
  decide

/-- C5: every emitted request is a JSON object whose keys appear in the
exact order jsonrpc, method, params, id, with jsonrpc equal to "1.0"; the
params key is always present, an empty parameter list rendering as `[]`
(shown byte-for-byte on the parameterless getbestblockhash command). -/
theorem C5_envelope_bytes (id : Json) (c : CmdVal) (s : String)
    (h : MarshalCmd id c = .ok s) :
    s = "\x7b\"jsonrpc\":\"1.0\",\"method\":" ++ (renderStr c.method ++ (",\"params\":[" ++
          (renderList (marshalParams c.fields) ++ ("],\"id\":" ++ (render id ++ "\x7d"))))) ∧
    (marshalParams c.fields = [] → renderList (marshalParams c.fields) = "") ∧
    MarshalCmd (.num (.int 1)) NewGetBestBlockHashCmd =
      .ok ("\x7b\"jsonrpc\":\"1.0\",\"method\":\"getbestblockhash\",\"params\":[],\"id\":1\x7d") := by
  refine ⟨?_, fun hp => by rw [hp]; rfl, by rfl⟩
  cases hlook : lookupMethod c.method with
  | none =>
      have h2 : (Except.error ErrUnregisteredMethod : Except ErrorCode String) = .ok s := by
        rw [← h]
        simp only [MarshalCmd, hlook]
      exact Except.noConfusion h2
  | some sch =>
      simp only [MarshalCmd, hlook] at h
      rw [← Except.ok.inj h, renderRequest_shape]

/-- C5 witness: the byte-shape law applied to the marshalled
getbestblockhash request, whose parameter list is empty. -/
theorem C5_envelope_bytes_witness :
    ("\x7b\"jsonrpc\":\"1.0\",\"method\":\"getbestblockhash\",\"params\":[],\"id\":1\x7d" : String) =
      "\x7b\"jsonrpc\":\"1.0\",\"method\":" ++ (renderStr ("getbestblockhash") ++ (",\"params\":[" ++
        (renderList (marshalParams NewGetBestBlockHashCmd.fields) ++
          ("],\"id\":" ++ (render (.num (.int 1)) ++ "\x7d"))))) :=
  (C5_envelope_bytes (.num (.int 1)) NewGetBestBlockHashCmd
      ("\x7b\"jsonrpc\":\"1.0\",\"method\":\"getbestblockhash\",\"params\":[],\"id\":1\x7d")
      (by rfl)).1

/-- C6: a positional JSON string argument aimed at an array or mapping
target is re-parsed as JSON and must then conform to the target kind; aimed
at any other target kind it cannot conform (a string only conforms to the
string kind), so the assignment fails with `InvalidType`; concretely the
notifyspent outpoint-array string and the sendmany amounts-object string of
the tests parse into the structured values of the typed constructors. -/
theorem C6_string_reparse :
    (∀ (ke : Kind) (s : String) (j : Json), parseJson s = some j →
        kindHolds (.kArray ke) j = true → assignParam (.kArray ke) (.str s) = .ok j) ∧
    (∀ (ke : Kind) (s : String) (j : Json), parseJson s = some j →
        kindHolds (.kMap ke) j = true → assignParam (.kMap ke) (.str s) = .ok j) ∧
    (∀ (k : Kind) (s : String), structuredKind k = false → kindHolds k (.str s) = false →
        assignParam k (.str s) = .error ErrInvalidType) ∧
    NewCmd ("notifyspent") [.str ("[\x7b\"hash\":\"123\",\"index\":0\x7d]")] =
      .ok (NewNotifySpentCmd [⟨("123"), 0⟩]) ∧
    NewCmd ("sendmany") [.str ("from"), .str ("\x7b\"1Address\":0.5\x7d")] =
      .ok (NewSendManyCmd ("from") [(("1Address"), .dec 5 1)] none none) := by
  refine ⟨?_, ?_, ?_, by rfl, by rfl⟩
  · intro ke s j hp hk
    have h0 : kindHolds (.kArray ke) (.str s) = false := rfl
    simp [assignParam, h0, structuredKind, hp, hk]
  · intro ke s j hp hk
    have h0 : kindHolds (.kMap ke) (.str s) = false := rfl
    simp [assignParam, h0, structuredKind, hp, hk]
  · intro k s hstruct hk
    simp [assignParam, hk, hstruct]

/-- C6 witness: the array re-parse law applied to the notifyreceived-style
address-list string of the tests. -/
theorem C6_string_reparse_witness :
    assignParam (.kArray .kString) (.str ("[\"1Address\"]")) =
      .ok (.arr [.str ("1Address")]) :=
  C6_string_reparse.1 .kString ("[\"1Address\"]") (.arr [.str ("1Address")])
    (by rfl) (by rfl)

/-- C7 (amended): the stringification of each of the twelve enumerated
error codes is the fixed stable string of the test table, and stringifying a
numeric code outside the enumeration yields exactly
`Unknown ErrorCode (<n>)` with the numeric value interpolated — the fallback
text says `ErrorCode`, not `ErrorKind`. -/
theorem C7_error_code_strings :
    (errorCodeString ErrDuplicateMethod = "ErrDuplicateMethod" ∧
     errorCodeString ErrInvalidUsageFlags = "ErrInvalidUsageFlags" ∧
     errorCodeString ErrInvalidType = "ErrInvalidType" ∧
     errorCodeString ErrEmbeddedType = "ErrEmbeddedType" ∧
     errorCodeString ErrUnexportedField = "ErrUnexportedField" ∧
     errorCodeString ErrUnsupportedFieldType = "ErrUnsupportedFieldType" ∧
     errorCodeString ErrNonOptionalField = "ErrNonOptionalField" ∧
     errorCodeString ErrNonOptionalDefault = "ErrNonOptionalDefault" ∧
     errorCodeString ErrMismatchedDefault = "ErrMismatchedDefault" ∧
     errorCodeString ErrUnregisteredMethod = "ErrUnregisteredMethod" ∧
     errorCodeString ErrNumParams = "ErrNumParams" ∧
     errorCodeString ErrMissingDescription = "ErrMissingDescription") ∧
    ∀ e : Int, e < 0 ∨ numErrorCodes ≤ e →
      errorCodeString e = "Unknown ErrorCode (" ++ renderInt e ++ ")" := by
  refine ⟨⟨rfl, rfl, rfl, rfl, rfl, rfl, rfl, rfl, rfl, rfl, rfl, rfl⟩, ?_⟩
  intro e he
  simp only [numErrorCodes] at he
  have hf : errorCodeStrings.find? (fun p => p.1 == e) = none := by
    rw [List.find?_eq_none]
    intro p hp
    fin_cases hp <;>
      simp only [ErrDuplicateMethod, ErrInvalidUsageFlags, ErrInvalidType, ErrEmbeddedType,
        ErrUnexportedField, ErrUnsupportedFieldType, ErrNonOptionalField,
        ErrNonOptionalDefault, ErrMismatchedDefault, ErrUnregisteredMethod,
        ErrNumParams, ErrMissingDescription, beq_iff_eq] <;>
      omega
  simp [errorCodeString, hf]

/-- C7 witness: the fallback law applied to the out-of-range code 65535 of
the test table. -/
theorem C7_error_code_strings_witness :
    errorCodeString 65535 = "Unknown ErrorCode (" ++ renderInt 65535 ++ ")" :=
  C7_error_code_strings.2 65535 (by decide)

/-- C7 counterexample: the out-of-range code 65535 stringifies to
`Unknown ErrorCode (65535)` (as `error_test.go` pins), not to the claimed
`Unknown ErrorKind (65535)`. -/
theorem C7_error_code_strings_counterexample :
    errorCodeString 65535 = "Unknown ErrorCode (65535)" ∧
    errorCodeString 65535 ≠ "Unknown ErrorKind (65535)" := by
  decide

/-- C9: the user-visible message of an `acmjson.Error` value is exactly its
Description field, whatever error-code tag it carries. -/
theorem C9_error_message (c : ErrorCode) (d : String) :
    AcmError.errorString ⟨c, d⟩ = d := rfl

/-- C10 (amended): the TemplateRequest decoder accepts, for the sigoplimit
and sizelimit members, a JSON number whose value is an integer within the
64-bit range — whatever its written form, so `500.0` qualifies — storing it
as that 64-bit integer, and a JSON boolean, stored as is; a present value
fails with an Error carrying the InvalidType code exactly when it is not
null, not a boolean, and not a number with a 64-bit integer form — in
particular a JSON string fails, and so do a fractional number and a number
beyond the 64-bit range, which have no such form. -/
theorem C10_template_request_limits :
    (∀ (n : String) (i : Int), -(2 ^ 63) ≤ i → i < 2 ^ 63 →
        convertTemplateRequestField n (some (.num (.int i))) = .ok (.int i)) ∧
    (∀ (n : String) (b : Bool),
        convertTemplateRequestField n (some (.bool b)) = .ok (.bool b)) ∧
    (∀ (n : String) (nv : JNum) (i : Int), jnumToInt64 nv = some i →
        convertTemplateRequestField n (some (.num nv)) = .ok (.int i)) ∧
    (∀ (n : String) (j : Json),
        (∃ e, convertTemplateRequestField n (some j) = .error e ∧
            e.errorCode = ErrInvalidType) ↔
          (j ≠ .null ∧ (∀ b, j ≠ .bool b) ∧
            ∀ nv, j = .num nv → jnumToInt64 nv = none)) ∧
    decodeTemplateRequest
        [(("sigoplimit"), .num (.int 500)), (("sizelimit"), .num (.int 100000000))] =
      .ok ⟨.int 500, .int 100000000⟩ ∧
    decodeTemplateRequest
        [(("sigoplimit"), .bool true), (("sizelimit"), .num (.int 100000000))] =
      .ok ⟨.bool true, .int 100000000⟩ ∧
    decodeTemplateRequest [(("sigoplimit"), .num (.dec 5000 1))] =
      .ok ⟨.int 500, .unset⟩ ∧
    decodeTemplateRequest [(("sigoplimit"), .num (.int (2 ^ 64)))] =
      .error ⟨ErrInvalidType, "Invalid sigoplimit format"⟩ ∧
    decodeTemplateRequest [(("sigoplimit"), .str ("invalid"))] =
      .error ⟨ErrInvalidType, "Invalid sigoplimit format"⟩ ∧
    decodeTemplateRequest [(("sizelimit"), .str ("invalid"))] =
      .error ⟨ErrInvalidType, "Invalid sizelimit format"⟩ := by
  refine ⟨?_, fun n b => rfl, ?_, fun n j => ?_, by decide, by decide,
    by decide, by decide, by decide, by decide⟩
  · intro n i h1 h2
    have hnum : jnumToInt64 (.int i) = some i := if_pos ⟨h1, h2⟩
    simp [convertTemplateRequestField, hnum]
  · intro n nv i hi
    simp [convertTemplateRequestField, hi]
  · cases j with
    | null => simp [convertTemplateRequestField]
    | bool b => simp [convertTemplateRequestField]
    | num nv =>
        cases hi : jnumToInt64 nv with
        | none => simp [convertTemplateRequestField, hi]
        | some i => simp [convertTemplateRequestField, hi]
    | str s => simp [convertTemplateRequestField]
    | arr xs => simp [convertTemplateRequestField]
    | obj kvs => simp [convertTemplateRequestField]

/-- C10 witness: the integer acceptance applied to the sigoplimit value 500
of the test table. -/
theorem C10_template_request_limits_witness :
    convertTemplateRequestField ("sigoplimit") (some (.num (.int 500))) =
      .ok (.int 500) :=
  C10_template_request_limits.1 ("sigoplimit") 500 (by decide) (by decide)

/-- C10 counterexample: the fractional JSON number 0.5 is a JSON number,
yet decoding a template request whose sigoplimit carries it fails with the
InvalidType error, contradicting the claim that decoding fails exactly when
the value is neither a number nor a boolean. -/
theorem C10_template_request_limits_counterexample :
    decodeTemplateRequest [(("sigoplimit"), .num (.dec 5 1))] =
      .error ⟨ErrInvalidType, "Invalid sigoplimit format"⟩ := by
  decide


/-- C8: for every method of the embedded registry and every argument list
both builders accept, constructing the command through the generic
positional builder and through the method's typed constructor with the same
arguments yields command values that marshal to byte-identical requests.
Every arity from the required count to the full field count of each of the
ten registered methods is covered, with the argument values universally
quantified (integer arguments restricted to exactly the ranges both
builders accept), plus the JSON-encoded-string form of the notifyspent
outpoint array, which re-parses to the typed constructor's structured
argument. -/
theorem C8_generic_vs_typed :
    (∀ (id : Json) (a sub : String),
        (NewCmd ("addnode") [.str a, .str sub]).bind (MarshalCmd id) =
          MarshalCmd id (NewAddNodeCmd a sub)) ∧
    (∀ (id : Json) (h : String),
        (NewCmd ("getblock") [.str h]).bind (MarshalCmd id) =
          MarshalCmd id (NewGetBlockCmd h none none)) ∧
    (∀ (id : Json) (h : String) (b : Bool),
        (NewCmd ("getblock") [.str h, .bool b]).bind (MarshalCmd id) =
          MarshalCmd id (NewGetBlockCmd h (some b) none)) ∧
    (∀ (id : Json) (h : String) (b c : Bool),
        (NewCmd ("getblock") [.str h, .bool b, .bool c]).bind (MarshalCmd id) =
          MarshalCmd id (NewGetBlockCmd h (some b) (some c))) ∧
    (∀ (id : Json) (i : Int), -(2 ^ 63) ≤ i → i < 2 ^ 63 →
        (NewCmd ("getblockhash") [.num (.int i)]).bind (MarshalCmd id) =
          MarshalCmd id (NewGetBlockHashCmd i)) ∧
    (∀ (id : Json),
        (NewCmd ("getbalance") []).bind (MarshalCmd id) =
          MarshalCmd id (NewGetBalanceCmd none none)) ∧
    (∀ (id : Json) (a : String),
        (NewCmd ("getbalance") [.str a]).bind (MarshalCmd id) =
          MarshalCmd id (NewGetBalanceCmd (some a) none)) ∧
    (∀ (id : Json) (a : String) (i : Int), -(2 ^ 63) ≤ i → i < 2 ^ 63 →
        (NewCmd ("getbalance") [.str a, .num (.int i)]).bind (MarshalCmd id) =
          MarshalCmd id (NewGetBalanceCmd (some a) (some i))) ∧
    (∀ (id : Json),
        (NewCmd ("getbestblockhash") []).bind (MarshalCmd id) =
          MarshalCmd id NewGetBestBlockHashCmd) ∧
    (∀ (id : Json),
        (NewCmd ("verifychain") []).bind (MarshalCmd id) =
          MarshalCmd id (NewVerifyChainCmd none none)) ∧
    (∀ (id : Json) (i : Int), -(2 ^ 31) ≤ i → i < 2 ^ 31 →
        (NewCmd ("verifychain") [.num (.int i)]).bind (MarshalCmd id) =
          MarshalCmd id (NewVerifyChainCmd (some i) none)) ∧
    (∀ (id : Json) (l d : Int), -(2 ^ 31) ≤ l → l < 2 ^ 31 →
        -(2 ^ 31) ≤ d → d < 2 ^ 31 →
        (NewCmd ("verifychain") [.num (.int l), .num (.int d)]).bind (MarshalCmd id) =
          MarshalCmd id (NewVerifyChainCmd (some l) (some d))) ∧
    (∀ (id : Json) (r : String),
        (NewCmd ("signrawtransaction") [.str r]).bind (MarshalCmd id) =
          MarshalCmd id (NewSignRawTransactionCmd r none none none)) ∧
    (∀ (id : Json) (r : String) (xs : List RawTxInput),
        xs.all (fun t => t.vout < 2 ^ 32) = true →
        (NewCmd ("signrawtransaction")
            [.str r, .arr (xs.map RawTxInput.toJson)]).bind (MarshalCmd id) =
          MarshalCmd id (NewSignRawTransactionCmd r (some xs) none none)) ∧
    (∀ (id : Json) (r : String) (xs : List RawTxInput) (ks : List String),
        xs.all (fun t => t.vout < 2 ^ 32) = true →
        (NewCmd ("signrawtransaction")
            [.str r, .arr (xs.map RawTxInput.toJson),
             .arr (ks.map .str)]).bind (MarshalCmd id) =
          MarshalCmd id (NewSignRawTransactionCmd r (some xs) (some ks) none)) ∧
    (∀ (id : Json) (r : String) (xs : List RawTxInput) (ks : List String) (f : String),
        xs.all (fun t => t.vout < 2 ^ 32) = true →
        (NewCmd ("signrawtransaction")
            [.str r, .arr (xs.map RawTxInput.toJson),
             .arr (ks.map .str), .str f]).bind (MarshalCmd id) =
          MarshalCmd id (NewSignRawTransactionCmd r (some xs) (some ks) (some f))) ∧
    (∀ (id : Json) (fr : String) (am : List (String × JNum)),
        (NewCmd ("sendmany")
            [.str fr, .obj (am.map (fun p => (p.1, .num p.2)))]).bind (MarshalCmd id) =
          MarshalCmd id (NewSendManyCmd fr am none none)) ∧
    (∀ (id : Json) (fr : String) (am : List (String × JNum)) (i : Int),
        -(2 ^ 63) ≤ i → i < 2 ^ 63 →
        (NewCmd ("sendmany")
            [.str fr, .obj (am.map (fun p => (p.1, .num p.2))),
             .num (.int i)]).bind (MarshalCmd id) =
          MarshalCmd id (NewSendManyCmd fr am (some i) none)) ∧
    (∀ (id : Json) (fr : String) (am : List (String × JNum)) (i : Int) (cm : String),
        -(2 ^ 63) ≤ i → i < 2 ^ 63 →
        (NewCmd ("sendmany")
            [.str fr, .obj (am.map (fun p => (p.1, .num p.2))),
             .num (.int i), .str cm]).bind (MarshalCmd id) =
          MarshalCmd id (NewSendManyCmd fr am (some i) (some cm))) ∧
    (∀ (id : Json) (ops : List OutPoint),
        ops.all (fun op => op.index < 2 ^ 32) = true →
        (NewCmd ("notifyspent") [.arr (ops.map OutPoint.toJson)]).bind (MarshalCmd id) =
          MarshalCmd id (NewNotifySpentCmd ops)) ∧
    (∀ (id : Json) (s : String) (ops : List OutPoint),
        parseJson s = some (.arr (ops.map OutPoint.toJson)) →
        ops.all (fun op => op.index < 2 ^ 32) = true →
        (NewCmd ("notifyspent") [.str s]).bind (MarshalCmd id) =
          MarshalCmd id (NewNotifySpentCmd ops)) ∧
    (∀ (id : Json),
        (NewCmd ("notifynewtransactions") []).bind (MarshalCmd id) =
          MarshalCmd id (NewNotifyNewTransactionsCmd none)) ∧
    (∀ (id : Json) (b : Bool),
        (NewCmd ("notifynewtransactions") [.bool b]).bind (MarshalCmd id) =
          MarshalCmd id (NewNotifyNewTransactionsCmd (some b))) := by
  refine ⟨?_, ?_, ?_, ?_, ?_, ?_, ?_, ?_, ?_, ?_, ?_, ?_, ?_, ?_, ?_, ?_, ?_, ?_,
    ?_, ?_, ?_, ?_, ?_⟩
  · intro id a sub
    have ha : NewCmd ("addnode") [.str a, .str sub] =
        .ok ⟨("addnode"), [some (.str a), some (.str sub)]⟩ :=
      NewCmd_ok ("addnode") addnodeSchema rfl _ _ (by simp [numReq, addnodeSchema])
        (assignArgs_cons_ok _ _ _ _ _ _ (assignField_some _ _ rfl)
          (assignArgs_cons_ok _ _ _ _ _ _ (assignField_some _ _ rfl)
            (assignArgs_tail_unset _)))
    rw [ha]
    rfl
  · intro id h
    have ha : NewCmd ("getblock") [.str h] =
        .ok ⟨("getblock"), [some (.str h), none, none]⟩ :=
      NewCmd_ok ("getblock") getblockSchema rfl _ _ (by simp [numReq, getblockSchema])
        (assignArgs_cons_ok _ _ _ _ _ _ (assignField_some _ _ rfl)
          (assignArgs_tail_unset _))
    rw [ha]
    rfl
  · intro id h b
    have ha : NewCmd ("getblock") [.str h, .bool b] =
        .ok ⟨("getblock"), [some (.str h), some (.bool b), none]⟩ :=
      NewCmd_ok ("getblock") getblockSchema rfl _ _ (by simp [numReq, getblockSchema])
        (assignArgs_cons_ok _ _ _ _ _ _ (assignField_some _ _ rfl)
          (assignArgs_cons_ok _ _ _ _ _ _ (assignField_some _ _ rfl)
            (assignArgs_tail_unset _)))
    rw [ha]
    rfl
  · intro id h b c
    have ha : NewCmd ("getblock") [.str h, .bool b, .bool c] =
        .ok ⟨("getblock"), [some (.str h), some (.bool b), some (.bool c)]⟩ :=
      NewCmd_ok ("getblock") getblockSchema rfl _ _ (by simp [numReq, getblockSchema])
        (assignArgs_cons_ok _ _ _ _ _ _ (assignField_some _ _ rfl)
          (assignArgs_cons_ok _ _ _ _ _ _ (assignField_some _ _ rfl)
            (assignArgs_cons_ok _ _ _ _ _ _ (assignField_some _ _ rfl)
              (assignArgs_tail_unset _))))
    rw [ha]
    rfl
  · intro id i h1 h2
    have hk : kindHolds Kind.kInt64 (.num (.int i)) = true := by
      simp only [kindHolds, Bool.and_eq_true, decide_eq_true_eq]
      omega
    have ha : NewCmd ("getblockhash") [.num (.int i)] =
        .ok ⟨("getblockhash"), [some (.num (.int i))]⟩ :=
      NewCmd_ok ("getblockhash") getblockhashSchema rfl _ _
        (by simp [numReq, getblockhashSchema])
        (assignArgs_cons_ok _ _ _ _ _ _ (assignField_some _ _ hk)
          (assignArgs_tail_unset _))
    rw [ha]
    rfl
  · intro id
    have ha : NewCmd ("getbalance") [] = .ok ⟨("getbalance"), [none, none]⟩ :=
      NewCmd_ok ("getbalance") getbalanceSchema rfl _ _
        (by simp [numReq, getbalanceSchema]) (assignArgs_tail_unset _)
    rw [ha]
    rfl
  · intro id a
    have ha : NewCmd ("getbalance") [.str a] =
        .ok ⟨("getbalance"), [some (.str a), none]⟩ :=
      NewCmd_ok ("getbalance") getbalanceSchema rfl _ _
        (by simp [numReq, getbalanceSchema])
        (assignArgs_cons_ok _ _ _ _ _ _ (assignField_some _ _ rfl)
          (assignArgs_tail_unset _))
    rw [ha]
    rfl
  · intro id a i h1 h2
    have hk : kindHolds Kind.kInt (.num (.int i)) = true := by
      simp only [kindHolds, Bool.and_eq_true, decide_eq_true_eq]
      omega
    have ha : NewCmd ("getbalance") [.str a, .num (.int i)] =
        .ok ⟨("getbalance"), [some (.str a), some (.num (.int i))]⟩ :=
      NewCmd_ok ("getbalance") getbalanceSchema rfl _ _
        (by simp [numReq, getbalanceSchema])
        (assignArgs_cons_ok _ _ _ _ _ _ (assignField_some _ _ rfl)
          (assignArgs_cons_ok _ _ _ _ _ _ (assignField_some _ _ hk)
            (assignArgs_tail_unset _)))
    rw [ha]
    rfl
  · intro id
    have ha : NewCmd ("getbestblockhash") [] = .ok ⟨("getbestblockhash"), []⟩ :=
      NewCmd_ok ("getbestblockhash") getbestblockhashSchema rfl _ _
        (by simp [numReq, getbestblockhashSchema]) (assignArgs_tail_unset _)
    rw [ha]
    rfl
  · intro id
    have ha : NewCmd ("verifychain") [] = .ok ⟨("verifychain"), [none, none]⟩ :=
      NewCmd_ok ("verifychain") verifychainSchema rfl _ _
        (by simp [numReq, verifychainSchema]) (assignArgs_tail_unset _)
    rw [ha]
    rfl
  · intro id i h1 h2
    have hk : kindHolds Kind.kInt32 (.num (.int i)) = true := by
      simp only [kindHolds, Bool.and_eq_true, decide_eq_true_eq]
      omega
    have ha : NewCmd ("verifychain") [.num (.int i)] =
        .ok ⟨("verifychain"), [some (.num (.int i)), none]⟩ :=
      NewCmd_ok ("verifychain") verifychainSchema rfl _ _
        (by simp [numReq, verifychainSchema])
        (assignArgs_cons_ok _ _ _ _ _ _ (assignField_some _ _ hk)
          (assignArgs_tail_unset _))
    rw [ha]
    rfl
  · intro id l d hl1 hl2 hd1 hd2
    have hkl : kindHolds Kind.kInt32 (.num (.int l)) = true := by
      simp only [kindHolds, Bool.and_eq_true, decide_eq_true_eq]
      omega
    have hkd : kindHolds Kind.kInt32 (.num (.int d)) = true := by
      simp only [kindHolds, Bool.and_eq_true, decide_eq_true_eq]
      omega
    have ha : NewCmd ("verifychain") [.num (.int l), .num (.int d)] =
        .ok ⟨("verifychain"), [some (.num (.int l)), some (.num (.int d))]⟩ :=
      NewCmd_ok ("verifychain") verifychainSchema rfl _ _
        (by simp [numReq, verifychainSchema])
        (assignArgs_cons_ok _ _ _ _ _ _ (assignField_some _ _ hkl)
          (assignArgs_cons_ok _ _ _ _ _ _ (assignField_some _ _ hkd)
            (assignArgs_tail_unset _)))
    rw [ha]
    rfl
  · intro id r
    have ha : NewCmd ("signrawtransaction") [.str r] =
        .ok ⟨("signrawtransaction"), [some (.str r), none, none, none]⟩ :=
      NewCmd_ok ("signrawtransaction") signrawtransactionSchema rfl _ _
        (by simp [numReq, signrawtransactionSchema])
        (assignArgs_cons_ok _ _ _ _ _ _ (assignField_some _ _ rfl)
          (assignArgs_tail_unset _))
    rw [ha]
    rfl
  · intro id r xs hv
    have hk : kindHolds (.kArray rawTxInputKind)
        (.arr (xs.map RawTxInput.toJson)) = true :=
      kindHolds_rawtxinputs xs hv
    have ha : NewCmd ("signrawtransaction")
          [.str r, .arr (xs.map RawTxInput.toJson)] =
        .ok ⟨("signrawtransaction"),
          [some (.str r), some (.arr (xs.map RawTxInput.toJson)), none, none]⟩ :=
      NewCmd_ok ("signrawtransaction") signrawtransactionSchema rfl _ _
        (by simp [numReq, signrawtransactionSchema])
        (assignArgs_cons_ok _ _ _ _ _ _ (assignField_some _ _ rfl)
          (assignArgs_cons_ok _ _ _ _ _ _ (assignField_some _ _ hk)
            (assignArgs_tail_unset _)))
    rw [ha]
    rfl
  · intro id r xs ks hv
    have hk : kindHolds (.kArray rawTxInputKind)
        (.arr (xs.map RawTxInput.toJson)) = true :=
      kindHolds_rawtxinputs xs hv
    have hks : kindHolds (.kArray .kString) (.arr (ks.map .str)) = true :=
      kindHolds_strings ks
    have ha : NewCmd ("signrawtransaction")
          [.str r, .arr (xs.map RawTxInput.toJson), .arr (ks.map .str)] =
        .ok ⟨("signrawtransaction"),
          [some (.str r), some (.arr (xs.map RawTxInput.toJson)),
           some (.arr (ks.map .str)), none]⟩ :=
      NewCmd_ok ("signrawtransaction") signrawtransactionSchema rfl _ _
        (by simp [numReq, signrawtransactionSchema])
        (assignArgs_cons_ok _ _ _ _ _ _ (assignField_some _ _ rfl)
          (assignArgs_cons_ok _ _ _ _ _ _ (assignField_some _ _ hk)
            (assignArgs_cons_ok _ _ _ _ _ _ (assignField_some _ _ hks)
              (assignArgs_tail_unset _))))
    rw [ha]
    rfl
  · intro id r xs ks f hv
    have hk : kindHolds (.kArray rawTxInputKind)
        (.arr (xs.map RawTxInput.toJson)) = true :=
      kindHolds_rawtxinputs xs hv
    have hks : kindHolds (.kArray .kString) (.arr (ks.map .str)) = true :=
      kindHolds_strings ks
    have ha : NewCmd ("signrawtransaction")
          [.str r, .arr (xs.map RawTxInput.toJson), .arr (ks.map .str), .str f] =
        .ok ⟨("signrawtransaction"),
          [some (.str r), some (.arr (xs.map RawTxInput.toJson)),
           some (.arr (ks.map .str)), some (.str f)]⟩ :=
      NewCmd_ok ("signrawtransaction") signrawtransactionSchema rfl _ _
        (by simp [numReq, signrawtransactionSchema])
        (assignArgs_cons_ok _ _ _ _ _ _ (assignField_some _ _ rfl)
          (assignArgs_cons_ok _ _ _ _ _ _ (assignField_some _ _ hk)
            (assignArgs_cons_ok _ _ _ _ _ _ (assignField_some _ _ hks)
              (assignArgs_cons_ok _ _ _ _ _ _ (assignField_some _ _ rfl)
                (assignArgs_tail_unset _)))))
    rw [ha]
    rfl
  · intro id fr am
    have hk : kindHolds (.kMap .kFloat)
        (.obj (am.map (fun p => (p.1, .num p.2)))) = true :=
      kindHolds_amounts am
    have ha : NewCmd ("sendmany")
          [.str fr, .obj (am.map (fun p => (p.1, .num p.2)))] =
        .ok ⟨("sendmany"),
          [some (.str fr), some (.obj (am.map (fun p => (p.1, .num p.2)))),
           none, none]⟩ :=
      NewCmd_ok ("sendmany") sendmanySchema rfl _ _
        (by simp [numReq, sendmanySchema])
        (assignArgs_cons_ok _ _ _ _ _ _ (assignField_some _ _ rfl)
          (assignArgs_cons_ok _ _ _ _ _ _ (assignField_some _ _ hk)
            (assignArgs_tail_unset _)))
    rw [ha]
    rfl
  · intro id fr am i h1 h2
    have hk : kindHolds (.kMap .kFloat)
        (.obj (am.map (fun p => (p.1, .num p.2)))) = true :=
      kindHolds_amounts am
    have hki : kindHolds Kind.kInt (.num (.int i)) = true := by
      simp only [kindHolds, Bool.and_eq_true, decide_eq_true_eq]
      omega
    have ha : NewCmd ("sendmany")
          [.str fr, .obj (am.map (fun p => (p.1, .num p.2))), .num (.int i)] =
        .ok ⟨("sendmany"),
          [some (.str fr), some (.obj (am.map (fun p => (p.1, .num p.2)))),
           some (.num (.int i)), none]⟩ :=
      NewCmd_ok ("sendmany") sendmanySchema rfl _ _
        (by simp [numReq, sendmanySchema])
        (assignArgs_cons_ok _ _ _ _ _ _ (assignField_some _ _ rfl)
          (assignArgs_cons_ok _ _ _ _ _ _ (assignField_some _ _ hk)
            (assignArgs_cons_ok _ _ _ _ _ _ (assignField_some _ _ hki)
              (assignArgs_tail_unset _))))
    rw [ha]
    rfl
  · intro id fr am i cm h1 h2
    have hk : kindHolds (.kMap .kFloat)
        (.obj (am.map (fun p => (p.1, .num p.2)))) = true :=
      kindHolds_amounts am
    have hki : kindHolds Kind.kInt (.num (.int i)) = true := by
      simp only [kindHolds, Bool.and_eq_true, decide_eq_true_eq]
      omega
    have ha : NewCmd ("sendmany")
          [.str fr, .obj (am.map (fun p => (p.1, .num p.2))),
           .num (.int i), .str cm] =
        .ok ⟨("sendmany"),
          [some (.str fr), some (.obj (am.map (fun p => (p.1, .num p.2)))),
           some (.num (.int i)), some (.str cm)]⟩ :=
      NewCmd_ok ("sendmany") sendmanySchema rfl _ _
        (by simp [numReq, sendmanySchema])
        (assignArgs_cons_ok _ _ _ _ _ _ (assignField_some _ _ rfl)
          (assignArgs_cons_ok _ _ _ _ _ _ (assignField_some _ _ hk)
            (assignArgs_cons_ok _ _ _ _ _ _ (assignField_some _ _ hki)
              (assignArgs_cons_ok _ _ _ _ _ _ (assignField_some _ _ rfl)
                (assignArgs_tail_unset _)))))
    rw [ha]
    rfl
  · intro id ops hall
    have hk : kindHolds (.kArray outPointKind)
        (.arr (ops.map OutPoint.toJson)) = true :=
      kindHolds_outpoints ops hall
    have ha : NewCmd ("notifyspent") [.arr (ops.map OutPoint.toJson)] =
        .ok ⟨("notifyspent"), [some (.arr (ops.map OutPoint.toJson))]⟩ :=
      NewCmd_ok ("notifyspent") notifyspentSchema rfl _ _
        (by simp [numReq, notifyspentSchema])
        (assignArgs_cons_ok _ _ _ _ _ _ (assignField_some _ _ hk)
          (assignArgs_tail_unset _))
    rw [ha]
    rfl
  · intro id s ops hp hall
    have hk : kindHolds (.kArray outPointKind)
        (.arr (ops.map OutPoint.toJson)) = true :=
      kindHolds_outpoints ops hall
    have h0 : kindHolds (.kArray outPointKind) (.str s) = false := rfl
    have hap : assignParam (.kArray outPointKind) (.str s) =
        .ok (.arr (ops.map OutPoint.toJson)) := by
      simp [assignParam, h0, structuredKind, hp, hk]
    have hf : assignField ⟨("outpoints"), false, none, .kArray outPointKind⟩ (.str s) =
        .ok (some (.arr (ops.map OutPoint.toJson))) :=
      assignField_of_assignParam _ _ _ (fun he => Json.noConfusion he) hap
    have ha : NewCmd ("notifyspent") [.str s] =
        .ok ⟨("notifyspent"), [some (.arr (ops.map OutPoint.toJson))]⟩ :=
      NewCmd_ok ("notifyspent") notifyspentSchema rfl _ _
        (by simp [numReq, notifyspentSchema])
        (assignArgs_cons_ok _ _ _ _ _ _ hf (assignArgs_tail_unset _))
    rw [ha]
    rfl
  · intro id
    have ha : NewCmd ("notifynewtransactions") [] =
        .ok ⟨("notifynewtransactions"), [none]⟩ :=
      NewCmd_ok ("notifynewtransactions") notifynewtransactionsSchema rfl _ _
        (by simp [numReq, notifynewtransactionsSchema]) (assignArgs_tail_unset _)
    rw [ha]
    rfl
  · intro id b
    have ha : NewCmd ("notifynewtransactions") [.bool b] =
        .ok ⟨("notifynewtransactions"), [some (.bool b)]⟩ :=
      NewCmd_ok ("notifynewtransactions") notifynewtransactionsSchema rfl _ _
        (by simp [numReq, notifynewtransactionsSchema])
        (assignArgs_cons_ok _ _ _ _ _ _ (assignField_some _ _ rfl)
          (assignArgs_tail_unset _))
    rw [ha]
    rfl

/-- C8 witness: the getblockhash equivalence applied to the in-range index
123 of the test table. -/
theorem C8_generic_vs_typed_witness :
    (NewCmd ("getblockhash") [.num (.int 123)]).bind (MarshalCmd (.num (.int 1))) =
      MarshalCmd (.num (.int 1)) (NewGetBlockHashCmd 123) :=
  C8_generic_vs_typed.2.2.2.2.1 (.num (.int 1)) 123 (by decide) (by decide)
